import Mathlib

/-
  Verification development for the tax-saver-app repository.

  Scope of the embedding:
  * `src/lib/config.ts`       - redactSensitiveData / validateRedaction (regex redactor)
  * `src/lib/tax-analysis.ts` - analyzeTaxDocument US post-processing blocks,
                                canGenerateReport, the zustand store operations
  * `src/lib/image-analysis.ts` - analyzeImageWithVision US post-processing block

  Modelling conventions:
  * JavaScript numbers are modelled as exact rationals.  All constants in the
    source are decimal literals, so every arithmetic fact proved here is about
    the ideal real-number semantics of the source expressions.
  * JavaScript strings are modelled as lists of characters (`Str`).  The three
    PII regular expressions of config.ts are fixed-shape patterns and are
    embedded by an executable scanner that mirrors the leftmost, non-overlapping
    global matching of `String.prototype.match`/`replace` with `\b` lookarounds
    made explicit.
  * `Math.round x` is `floor (x + 1/2)`, `Math.max` is `max`.
  * Optional JSON fields are `Option` values; the JavaScript truthiness tests
    of the source (`if (x && y)`, `x || 0`, `x?.`) are mirrored explicitly.
-/

/-- Strings of the modelled program are lists of characters. -/
abbrev Str := List Char

/-- ASCII lower-casing of one character, the effect of
`String.prototype.toLowerCase` on the ASCII inputs handled by the app. -/
def lowerCh (c : Char) : Char :=
  if 65 ≤ c.toNat ∧ c.toNat ≤ 90 then Char.ofNat (c.toNat + 32) else c

/-- `s.toLowerCase()` on the character-list model. -/
def lowerL (s : Str) : Str := s.map lowerCh

/-- `hay.includes(needle)`: substring test of JavaScript strings. -/
def strIncl : Str → Str → Bool
  | [], needle => needle.isPrefixOf []
  | c :: cs, needle => needle.isPrefixOf (c :: cs) || strIncl cs needle

/-- JavaScript truthiness of an optional number (`undefined`, `0` are falsy). -/
def jsTruthyNum : Option ℚ → Bool
  | none => false
  | some q => decide (q ≠ 0)

/-- JavaScript truthiness of an optional string (`undefined`, `""` are falsy). -/
def jsTruthyStr : Option Str → Bool
  | none => false
  | some s => decide (s ≠ [])

/-- `Math.round`: round half toward positive infinity. -/
def jsRound (q : ℚ) : ℚ := ((⌊q + 1/2⌋ : ℤ) : ℚ)

/-! ## Data model (tax-analysis.ts, interface TaxAnalysisResult, abridged to the
fields read or written by the post-processing blocks) -/
/-- `summary` record of `TaxAnalysisResult`. -/
structure Summary where
  totalIncome : ℚ
  currentTaxLiability : ℚ
  potentialSavings : ℚ
  effectiveTaxRate : ℚ

/-- One element of `deductions` (interface `TaxSavingsItem`).  The source reads
`category` defensively through `?.`, so it is modelled as optional. -/
structure TaxSavingsItem where
  category : Option Str
  sectionName : Option Str
  currentAmount : ℚ
  maxLimit : ℚ
  potentialSavings : ℚ
deriving DecidableEq

/-- One element of `missedSavings` (interface `MissedSavingsItem`). -/
structure MissedSavingsItem where
  sectionName : Option Str
  missedAmount : ℚ
  maxLimit : ℚ
deriving DecidableEq

/-- One side (`current` / `optimized`) of `USComparison`. -/
structure USCompSide where
  grossIncome : ℚ
  federalWithholding : ℚ
  effectiveRate : ℚ

/-- Interface `USComparison` (fields touched by the correctors). -/
structure USComparison where
  current : USCompSide
  optimized : USCompSide
  annualSavings : ℚ

/-- Interface `TaxAnalysisResult`, restricted to the fields the US-mode
post-processing reads or writes. -/
structure TaxAnalysisResult where
  summary : Summary
  usComparison : Option USComparison
  currentGrossPay : Option ℚ
  payFrequencyDetected : Option Str
  missedSavings : List MissedSavingsItem
  deductions : List TaxSavingsItem

/-! ## US-mode income correction (tax-analysis.ts lines 347-371; the identical
block appears in image-analysis.ts lines 1015-1035) -/
/-- The pay-frequency multiplier chain: `freq` is lowercased and tested with
`includes` in the source order (month-and-not-semi, bi, week, semi); every
other frequency yields `0` ("no valid multiplier"). -/
def usMultiplier (freqDetected : Str) : ℚ :=
  let freq := lowerL freqDetected
  if strIncl freq ("month".toList) && !strIncl freq ("semi".toList) then 12
  else if strIncl freq ("bi".toList) then 26
  else if strIncl freq ("week".toList) then 52
  else if strIncl freq ("semi".toList) then 24
  else 0

/-- Step 1 of the US post-processing: if `currentGrossPay` and
`payFrequencyDetected` are truthy and the multiplier chain found a valid
multiplier, `summary.totalIncome` is overwritten with `gross * multiplier`.
(The source also rewrites the free-text `calculationExplanation`, which is not
part of the modelled record.) -/
def usIncomeFix (a : TaxAnalysisResult) : TaxAnalysisResult :=
  if jsTruthyNum a.currentGrossPay && jsTruthyStr a.payFrequencyDetected then
    let gross := a.currentGrossPay.getD 0
    let multiplier := usMultiplier (a.payFrequencyDetected.getD [])
    if 0 < multiplier then
      { a with summary := { a.summary with totalIncome := gross * multiplier } }
    else a
  else a

/-! ## Marginal-rate lookup (tax-analysis.ts lines 376-384; the identical chain
appears in image-analysis.ts lines 1039-1047) -/
/-- The fixed 2024 federal bracket chain.  The source initialises the rate to
`0.24` and then reassigns it through an exhaustive if/else chain, which is the
chain below. -/
def usMarginalRate (annualIncome : ℚ) : ℚ :=
  if annualIncome ≤ 11600 then 0.10
  else if annualIncome ≤ 47150 then 0.12
  else if annualIncome ≤ 100525 then 0.22
  else if annualIncome ≤ 191950 then 0.24
  else if annualIncome ≤ 243725 then 0.32
  else if annualIncome ≤ 609350 then 0.35
  else 0.37

/-! ## Per-deduction correction, text path (tax-analysis.ts lines 388-405) -/
/-- Body of the `deductions.map` closure of analyzeTaxDocument: Roth IRA gets
the raw gap; a 401/HSA deduction is overwritten with `round(gap * rate)` only
when the model value is `0` or less than half of the recomputed figure;
anything else is returned unchanged. -/
def usFixDeductionText (marginalRate : ℚ) (d : TaxSavingsItem) : TaxSavingsItem :=
  let category := lowerL (d.category.getD [])
  let gap := max 0 (d.maxLimit - d.currentAmount)
  if strIncl category ("roth ira".toList) then
    { d with potentialSavings := gap }
  else if strIncl category ("401".toList) || strIncl category ("hsa".toList) then
    let taxSavings := jsRound (gap * marginalRate)
    if d.potentialSavings = 0 ∨ d.potentialSavings < taxSavings * 0.5 then
      { d with potentialSavings := taxSavings }
    else d
  else d

/-- The contribution of one (already corrected) deduction to the closure
variable `totalTaxSavings`: only non-Roth 401/HSA deductions are accumulated. -/
def usSavingsContribution (d : TaxSavingsItem) : ℚ :=
  let category := lowerL (d.category.getD [])
  if strIncl category ("roth ira".toList) then 0
  else if strIncl category ("401".toList) || strIncl category ("hsa".toList) then
    d.potentialSavings
  else 0

/-- Step 2 of the text-path US post-processing (tax-analysis.ts lines 374-414):
runs only when `deductions` is non-empty; corrects every deduction, sums the
401/HSA savings, overwrites `summary.potentialSavings` when the sum is positive
and the model total is `0` or less than half the sum, and mirrors the summary
total into `usComparison.annualSavings` when that record is present. -/
def usDeductionsFixText (a : TaxAnalysisResult) : TaxAnalysisResult :=
  if a.deductions ≠ [] then
    let annualIncome := a.summary.totalIncome
    let marginalRate := usMarginalRate annualIncome
    let ds := a.deductions.map (usFixDeductionText marginalRate)
    let totalTaxSavings := (ds.map usSavingsContribution).sum
    let newSummary :=
      if 0 < totalTaxSavings ∧
          (a.summary.potentialSavings = 0 ∨
            a.summary.potentialSavings < totalTaxSavings * 0.5) then
        { a.summary with potentialSavings := totalTaxSavings }
      else a.summary
    let a' := { a with deductions := ds, summary := newSummary }
    match a'.usComparison with
    | some uc =>
        { a' with usComparison := some { uc with annualSavings := newSummary.potentialSavings } }
    | none => a'
  else a

/-! ## Missed-savings fallback, text path (tax-analysis.ts lines 429-453,
US branch) -/
/-- The reduced bracket chain used only by the missed-savings fallback. -/
def usMissedRate (annualIncome : ℚ) : ℚ :=
  if annualIncome ≤ 47150 then 0.12
  else if annualIncome ≤ 100525 then 0.22
  else if annualIncome ≤ 191950 then 0.24
  else if annualIncome ≤ 243725 then 0.32
  else 0.35

/-- Fallback: when the summary still shows zero savings and `missedSavings` is
non-empty, estimate savings as the marginal-rate value of the 401/HSA missed
amounts and overwrite the summary (and `usComparison.annualSavings`) when the
estimate is positive. -/
def usMissedFallback (a : TaxAnalysisResult) : TaxAnalysisResult :=
  if a.summary.potentialSavings = 0 ∧ a.missedSavings ≠ [] then
    let annualIncome := a.summary.totalIncome
    let marginalRate := usMissedRate annualIncome
    let estimatedSavings :=
      (a.missedSavings.map (fun item =>
        let s := lowerL (item.sectionName.getD [])
        if strIncl s ("401".toList) || strIncl s ("hsa".toList) then
          item.missedAmount * marginalRate
        else 0)).sum
    if 0 < estimatedSavings then
      let newSummary := { a.summary with potentialSavings := jsRound estimatedSavings }
      let a' := { a with summary := newSummary }
      match a'.usComparison with
      | some uc =>
          { a' with usComparison := some { uc with annualSavings := newSummary.potentialSavings } }
      | none => a'
    else a
  else a

/-- The complete US-mode post-processing of analyzeTaxDocument (text path). -/
def usPostProcessText (a : TaxAnalysisResult) : TaxAnalysisResult :=
  usMissedFallback (usDeductionsFixText (usIncomeFix a))

/-! ## US-mode post-processing, image path (image-analysis.ts lines 1012-1106) -/
/-- Body of the `deductions.map` closure of analyzeImageWithVision: a 401/HSA
deduction is unconditionally overwritten with `round(gap * rate)`; everything
else (including Roth IRA) is untouched. -/
def usFixDeductionImage (marginalRate : ℚ) (d : TaxSavingsItem) : TaxSavingsItem :=
  if strIncl (lowerL (d.category.getD [])) ("401".toList) ||
      strIncl (lowerL (d.category.getD [])) ("hsa".toList) then
    { d with potentialSavings := jsRound (max 0 (d.maxLimit - d.currentAmount) * marginalRate) }
  else d

/-- The default 401(k) record pushed by the image path when no 401 deduction is
present. -/
def default401k (marginalRate : ℚ) : TaxSavingsItem :=
  { category := some ("401(k) Retirement".toList)
    sectionName := some ("Pre-tax".toList)
    currentAmount := 0
    maxLimit := 23000
    potentialSavings := jsRound (23000 * marginalRate) }

/-- The default HSA record pushed by the image path when no HSA deduction is
present. -/
def defaultHSA (marginalRate : ℚ) : TaxSavingsItem :=
  { category := some ("HSA (Health Savings Account)".toList)
    sectionName := some ("Pre-tax".toList)
    currentAmount := 0
    maxLimit := 4150
    potentialSavings := jsRound (4150 * marginalRate) }

/-- The complete US-mode post-processing of analyzeImageWithVision: income fix,
rate lookup on the (possibly corrected) income, unconditional 401/HSA
recalculation, insertion of missing 401(k)/HSA rows, and an unconditional
overwrite of `summary.potentialSavings` with the sum of the savings of every
final deduction, mirrored into `usComparison` when present. -/
def usPostProcessImage (a : TaxAnalysisResult) : TaxAnalysisResult :=
  let a1 := usIncomeFix a
  let annualIncome := a1.summary.totalIncome
  let marginalRate := usMarginalRate annualIncome
  let ds1 := a1.deductions.map (usFixDeductionImage marginalRate)
  let ds2 :=
    if ds1.any (fun d => strIncl (lowerL (d.category.getD [])) ("401".toList)) then ds1
    else ds1 ++ [default401k marginalRate]
  let ds3 :=
    if ds2.any (fun d => strIncl (lowerL (d.category.getD [])) ("hsa".toList)) then ds2
    else ds2 ++ [defaultHSA marginalRate]
  let totalTaxSavings := (ds3.map TaxSavingsItem.potentialSavings).sum
  let newSummary := { a1.summary with potentialSavings := totalTaxSavings }
  let a2 := { a1 with deductions := ds3, summary := newSummary }
  match a2.usComparison with
  | some uc =>
      let uc1 := { uc with
        annualSavings := totalTaxSavings
        current := { uc.current with grossIncome := annualIncome }
        optimized := { uc.optimized with grossIncome := annualIncome } }
      let uc2 :=
        if 0 < annualIncome then
          { uc1 with
            current := { uc1.current with
              effectiveRate := uc1.current.federalWithholding / annualIncome * 100 }
            optimized := { uc1.optimized with
              effectiveRate := uc1.optimized.federalWithholding / annualIncome * 100 } }
        else uc1
      { a2 with usComparison := some uc2 }
  | none => a2

/-! ## Rate limiting (tax-store, tax-analysis.ts lines 1183-1188) -/
/-- `canGenerateReport` of the zustand store.  `now` stands for `Date.now()`.
`!lastReportTimestamp` is JavaScript falsiness, true for `null` and for `0`. -/
def canGenerateReport (lastReportTimestamp : Option ℚ) (now : ℚ) : Bool :=
  match lastReportTimestamp with
  | none => true
  | some t =>
    if t = 0 then true
    else decide ((now - t) / (1000 * 60 * 60) ≥ 24)

/-! ## Leads store (tax-store, tax-analysis.ts lines 1121-1205) -/
/-- `CountryMode` of the store. -/
inductive CountryMode where
  | india
  | us
deriving DecidableEq

/-- Interface `Lead`. -/
structure Lead where
  id : Str
  email : Str
  date : Str
  mode : CountryMode
  estimatedSavings : ℚ

/-- The `Omit<Lead, 'id'>` argument of `addLead`. -/
structure LeadInput where
  email : Str
  date : Str
  mode : CountryMode
  estimatedSavings : ℚ

/-- The persisted slice of the store state. -/
structure TaxStoreState where
  countryMode : CountryMode
  leads : List Lead
  lastReportTimestamp : Option ℚ
  unlockedEmail : Option Str

/-- The id string `lead_${Date.now()}_${random}` built by `addLead`; the two
dynamic parts are parameters of the model. -/
def genLeadId (now : ℤ) (rand : Str) : Str :=
  ("lead_".toList) ++ (toString now).toList ++ ("_".toList) ++ rand

/-- `addLead`: appends one new lead built from the input plus a generated id. -/
def addLead (s : TaxStoreState) (input : LeadInput) (now : ℤ) (rand : Str) :
    TaxStoreState :=
  { s with leads := s.leads ++
      [{ id := genLeadId now rand
         email := input.email
         date := input.date
         mode := input.mode
         estimatedSavings := input.estimatedSavings }] }

/-- `clearLeads`. -/
def clearLeads (s : TaxStoreState) : TaxStoreState := { s with leads := [] }

/-- `setCountryMode`. -/
def setCountryMode (s : TaxStoreState) (mode : CountryMode) : TaxStoreState :=
  { s with countryMode := mode }

/-- `setLastReportTimestamp`. -/
def setLastReportTimestamp (s : TaxStoreState) (timestamp : Option ℚ) : TaxStoreState :=
  { s with lastReportTimestamp := timestamp }

/-- `setUnlockedEmail`. -/
def setUnlockedEmail (s : TaxStoreState) (email : Str) : TaxStoreState :=
  { s with unlockedEmail := some email }

/-- `clearUnlockedEmail`. -/
def clearUnlockedEmail (s : TaxStoreState) : TaxStoreState :=
  { s with unlockedEmail := none }

/-! ## Failure structure of analyzeTaxDocument (tax-analysis.ts lines 279-339) -/
/-- Left brace and right brace characters (code points 123 and 125). -/
def lbrace : Char := Char.ofNat 123

/-- Right brace. -/
def rbrace : Char := Char.ofNat 125

/-- Longest prefix of `l` through the last occurrence of `c`, or `none` when
`c` does not occur. -/
def takeThroughLast (c : Char) : Str → Option Str
  | [] => none
  | x :: xs =>
    match takeThroughLast c xs with
    | some r => some (x :: r)
    | none => if x = c then some [x] else none

/-- The (unique) match of the greedy regular expression `\{[\s\S]*\}` on `l`:
from the first left brace through the last right brace after it, or `none`
when no such pair exists. -/
def jsonMatchStr : Str → Option Str
  | [] => none
  | c :: cs =>
    if c = lbrace then
      match takeThroughLast rbrace cs with
      | some r => some (c :: r)
      | none => none
    else jsonMatchStr cs

/-- The error/return structure of `analyzeTaxDocument` up to (and excluding)
`JSON.parse`: guard clauses for the API key and the dynamic rules, the HTTP
status check, and the JSON-object regex probe of the reply text, in source
order.  On success it returns the matched substring handed to `JSON.parse`. -/
def analyzeStage (apiKey : Option Str) (dynamicRules : Option Str)
    (responseOk : Bool) (errorBody : Str) (outputText : Str) : Except Str Str :=
  if !jsTruthyStr apiKey then
    .error ("OpenAI API key not configured. Please add it in Vercel Environment Variables.".toList)
  else if !jsTruthyStr dynamicRules then
    .error ("Tax rules not loaded. Please wait for rules to load or check your connection.".toList)
  else if !responseOk then
    .error (("API request failed: ".toList) ++ errorBody)
  else
    match jsonMatchStr outputText with
    | none => .error ("Could not parse tax analysis response".toList)
    | some s => .ok s

/-- Concrete US analysis used for the C1 example: gross 10338.43, frequency
Monthly. -/
def exC1 : TaxAnalysisResult :=
  { summary := ⟨0, 0, 0, 0⟩
    usComparison := none
    currentGrossPay := some 10338.43
    payFrequencyDetected := some ("Monthly".toList)
    missedSavings := []
    deductions := [] }

/-- Concrete 401(k) deduction whose model savings figure (5000) is already
more than half of the recomputed figure (5160). -/
def exC3 : TaxSavingsItem :=
  { category := some ("401(k)".toList), sectionName := none,
    currentAmount := 1500, maxLimit := 23000, potentialSavings := 5000 }

/-- US analysis containing only `exC3`, with annual income 150000. -/
def exC3A : TaxAnalysisResult :=
  { summary := ⟨150000, 0, 0, 0⟩
    usComparison := none
    currentGrossPay := none
    payFrequencyDetected := none
    missedSavings := []
    deductions := [exC3] }

/-- The C3 example deduction with a zero model figure. -/
def exC3zero : TaxSavingsItem := { exC3 with potentialSavings := 0 }

/-- Concrete Roth IRA deduction for the C3 witness. -/
def dC3roth : TaxSavingsItem :=
  { category := some ("Roth IRA".toList), sectionName := none,
    currentAmount := 2000, maxLimit := 7000, potentialSavings := 123 }

/-- Concrete 401(k) deduction with zero model savings (C4 image example). -/
def dC4a : TaxSavingsItem :=
  { category := some ("401(k)".toList), sectionName := none,
    currentAmount := 1500, maxLimit := 23000, potentialSavings := 0 }

/-- Concrete HSA deduction with zero model savings (C4 image example). -/
def dC4b : TaxSavingsItem :=
  { category := some ("HSA".toList), sectionName := none,
    currentAmount := 0, maxLimit := 4150, potentialSavings := 0 }

/-- Image-path analysis whose model summary total (10000) is well above half
the recomputed sum (6156). -/
def exC4img : TaxAnalysisResult :=
  { summary := ⟨150000, 0, 10000, 0⟩, usComparison := none, currentGrossPay := none,
    payFrequencyDetected := none, missedSavings := [], deductions := [dC4a, dC4b] }

/-- Concrete saturated Roth IRA deduction (C4 text example). -/
def dC4roth : TaxSavingsItem :=
  { category := some ("Roth IRA".toList), sectionName := none,
    currentAmount := 7000, maxLimit := 7000, potentialSavings := 0 }

/-- Text-path analysis with a negative model summary total and a zero
recomputed 401/HSA sum. -/
def exC4txt : TaxAnalysisResult :=
  { summary := ⟨150000, 0, -100, 0⟩, usComparison := none, currentGrossPay := none,
    payFrequencyDetected := none, missedSavings := [], deductions := [dC4roth] }

/-! ## Redactor (config.ts)

The three PII regular expressions of config.ts are fixed-shape patterns:

* PAN      `[A-Z]{5}[0-9]{4}[A-Z]{1}`            (no boundaries)
* SSN      `\b\d{3}-\d{2}-\d{4}\b`
* Aadhaar  `\b\d{4}\s\d{4}\s\d{4}\b`

A pattern is a list of character predicates plus an optional word-boundary
requirement on both ends (the first and last pattern characters of the two
boundary patterns are digits, i.e. word characters, so `\b` holds exactly when
the neighbour is absent or a non-word character).  `scanGo` mirrors the
leftmost, non-overlapping global scan of `String.prototype.replace` /
`match` with the `g` flag, producing the match count and the text with each
match replaced by the placeholder. -/
/-- ASCII digit. -/
def isDigitCh (c : Char) : Bool := 48 ≤ c.toNat && c.toNat ≤ 57

/-- ASCII uppercase letter. -/
def isUpperCh (c : Char) : Bool := 65 ≤ c.toNat && c.toNat ≤ 90

/-- The hyphen of the SSN pattern. -/
def isHyphenCh (c : Char) : Bool := c.toNat = 45

/-- JavaScript `\s` (the whitespace class, unicode code points). -/
def isSpaceCh (c : Char) : Bool :=
  (9 ≤ c.toNat && c.toNat ≤ 13) || c.toNat = 32 || c.toNat = 160 || c.toNat = 5760 ||
  (8192 ≤ c.toNat && c.toNat ≤ 8202) || c.toNat = 8232 || c.toNat = 8233 ||
  c.toNat = 8239 || c.toNat = 8287 || c.toNat = 12288 || c.toNat = 65279

/-- JavaScript `\w` (word character): `[A-Za-z0-9_]`. -/
def isWordCh (c : Char) : Bool :=
  isDigitCh c || isUpperCh c || (97 ≤ c.toNat && c.toNat ≤ 122) || c.toNat = 95

/-- A `\b` test against an optional neighbour character, for a pattern whose
adjacent own character is a word character: the boundary holds when the
neighbour is absent (text edge) or not a word character. -/
def nWord : Option Char → Bool
  | none => true
  | some c => !isWordCh c

/-- A fixed-shape regular expression: per-position predicates, whether the
pattern carries `\b` on both ends, and the replacement placeholder. -/
structure Pat where
  preds : List (Char → Bool)
  bdry : Bool
  ph : Str

/-- Does `l` start with the given shape? -/
def shapeAt : List (Char → Bool) → Str → Bool
  | [], _ => true
  | _ :: _, [] => false
  | p :: ps, c :: cs => p c && shapeAt ps cs

/-- Does a match of `P` start at the head of `l`, with `prev` the character
just before the head (`none` at the start of the text)? -/
def matchAtP (P : Pat) (prev : Option Char) (l : Str) : Bool :=
  (!P.bdry || nWord prev) && shapeAt P.preds l && (!P.bdry || nWord l[P.preds.length]?)

/-- The global scan.  The third argument is the number of already-matched
characters still to be skipped (the scanner resumes after the end of each
match, exactly like `lastIndex`); `prev` is threaded through every consumed
character so the `\b` look-behind is always available. -/
def scanGo (P : Pat) : Option Char → Str → Nat → Nat × Str
  | _, [], _ => (0, [])
  | _, c :: cs, Nat.succ k => scanGo P (some c) cs k
  | prev, c :: cs, 0 =>
    if matchAtP P prev (c :: cs) then
      ((scanGo P (some c) cs (P.preds.length - 1)).1 + 1,
        P.ph ++ (scanGo P (some c) cs (P.preds.length - 1)).2)
    else
      ((scanGo P (some c) cs 0).1, c :: (scanGo P (some c) cs 0).2)

/-- Number of matches of the global scan (the length of `text.match(re)`). -/
def scanCount (P : Pat) (prev : Option Char) (l : Str) : Nat := (scanGo P prev l 0).1

/-- Replacement result of the global scan (`text.replace(re, placeholder)`). -/
def scanOut (P : Pat) (prev : Option Char) (l : Str) : Str := (scanGo P prev l 0).2

/-- `INDIAN_PAN_PATTERN = /[A-Z]{5}[0-9]{4}[A-Z]{1}/g` with placeholder
`[REDACTED_PAN]`. -/
def panPat : Pat :=
  { preds := [isUpperCh, isUpperCh, isUpperCh, isUpperCh, isUpperCh,
      isDigitCh, isDigitCh, isDigitCh, isDigitCh, isUpperCh]
    bdry := false
    ph := "[REDACTED_PAN]".toList }

/-- `US_SSN_PATTERN = /\b\d{3}-\d{2}-\d{4}\b/g` with placeholder
`[REDACTED_SSN]`. -/
def ssnPat : Pat :=
  { preds := [isDigitCh, isDigitCh, isDigitCh, isHyphenCh, isDigitCh, isDigitCh,
      isHyphenCh, isDigitCh, isDigitCh, isDigitCh, isDigitCh]
    bdry := true
    ph := "[REDACTED_SSN]".toList }

/-- `AADHAAR_PATTERN = /\b\d{4}\s\d{4}\s\d{4}\b/g` with placeholder
`[REDACTED_AADHAAR]`. -/
def aadPat : Pat :=
  { preds := [isDigitCh, isDigitCh, isDigitCh, isDigitCh, isSpaceCh,
      isDigitCh, isDigitCh, isDigitCh, isDigitCh, isSpaceCh,
      isDigitCh, isDigitCh, isDigitCh, isDigitCh]
    bdry := true
    ph := "[REDACTED_AADHAAR]".toList }

/-- The redaction categories of config.ts. -/
inductive RedType where
  | PAN
  | SSN
  | AADHAAR
deriving DecidableEq

/-- Interface `RedactionResult`. -/
structure RedactionResult where
  cleanedText : Str
  redactedItems : List (RedType × Nat)
  totalRedactions : Nat
deriving DecidableEq

/-- `redactSensitiveData`: india mode counts and replaces PANs on the input
and then Aadhaar numbers on the PAN-cleaned text; US mode counts and replaces
SSNs; a category is replaced (and recorded) only when at least one match was
found, exactly as in the source. -/
def redactSensitiveData (text : Str) (countryMode : CountryMode) : RedactionResult :=
  match countryMode with
  | .india =>
    let panN := scanCount panPat none text
    let cleaned1 := if 0 < panN then scanOut panPat none text else text
    let items1 : List (RedType × Nat) := if 0 < panN then [(RedType.PAN, panN)] else []
    let aadN := scanCount aadPat none cleaned1
    let cleaned2 := if 0 < aadN then scanOut aadPat none cleaned1 else cleaned1
    let items2 := items1 ++ (if 0 < aadN then [(RedType.AADHAAR, aadN)] else [])
    { cleanedText := cleaned2
      redactedItems := items2
      totalRedactions := (items2.map Prod.snd).sum }
  | .us =>
    let ssnN := scanCount ssnPat none text
    let cleaned := if 0 < ssnN then scanOut ssnPat none text else text
    let items : List (RedType × Nat) := if 0 < ssnN then [(RedType.SSN, ssnN)] else []
    { cleanedText := cleaned
      redactedItems := items
      totalRedactions := (items.map Prod.snd).sum }

/-- `validateRedaction`: india mode tests only the PAN pattern, US mode only
the SSN pattern; true when no match exists. -/
def validateRedaction (text : Str) (countryMode : CountryMode) : Bool :=
  match countryMode with
  | .india => scanCount panPat none text == 0
  | .us => scanCount ssnPat none text == 0

/-! ## Scanner step lemmas -/
/-- The previous-character value after skipping `k` characters of `l`. -/
def skipPrev (p : Option Char) : Str → Nat → Option Char
  | _, 0 => p
  | [], _ + 1 => p
  | c :: cs, k + 1 => skipPrev (some c) cs k

/-- The character just before position `i` of `l`, where `p` precedes `l`. -/
def prevAt (p : Option Char) (l : Str) (i : Nat) : Option Char :=
  if i = 0 then p else l[i - 1]?

/-! ## Window counting (used for the PAN pattern, which has no boundaries) -/
/-- Number of positions of `l` where a match of `P` starts (overlapping
occurrences all counted; the look-behind is irrelevant for a pattern without
boundaries). -/
def winCount (P : Pat) : Str → Nat
  | [] => 0
  | c :: cs => (if matchAtP P none (c :: cs) = true then 1 else 0) + winCount P cs

/-! ## Decidable shield checks -/
/-- Decidable check that no match of `P` can start at any position inside `u`:
every alignment has a position whose `u`-character fails its predicate. -/
def shieldChk (P : Pat) (u : Str) : Bool :=
  (List.range u.length).all (fun j =>
    (List.range P.preds.length).any (fun i =>
      match P.preds[i]?, u[j + i]? with
      | some p0, some d => !p0 d
      | _, _ => false))

/-- The PAN-redacted intermediate text of india mode. -/
def indiaStep1 (text : Str) : Str :=
  if 0 < scanCount panPat none text then scanOut panPat none text else text

/-! ## Theorems -/

/-! ## Helper lemmas -/
/-- Evaluation rule for `jsRound` via the floor characterisation. -/
theorem jsRound_eval (q : ℚ) (z : ℤ) (h1 : (z : ℚ) ≤ q + 1/2) (h2 : q + 1/2 < z + 1) :
    jsRound q = (z : ℚ) := by
  unfold jsRound
  norm_num [Int.floor_eq_iff.mpr ⟨h1, by exact_mod_cast h2⟩]

/-- The income fix rewrites `summary.totalIncome` to `gross * multiplier`
whenever both fields are truthy and the multiplier chain succeeds. -/
theorem usIncomeFix_totalIncome (a : TaxAnalysisResult) (g : ℚ) (f : Str)
    (hg : a.currentGrossPay = some g) (hgne : g ≠ 0)
    (hf : a.payFrequencyDetected = some f) (hfne : f ≠ [])
    (m : ℚ) (hm : usMultiplier f = m) (hmpos : 0 < m) :
    (usIncomeFix a).summary.totalIncome = g * m := by
  simp [usIncomeFix, hg, hf, jsTruthyNum, jsTruthyStr, hgne, hfne, hm, hmpos]

/-- C1: for a US-mode response with a positive `currentGrossPay` and a
non-empty `payFrequencyDetected`, the corrector overwrites
`summary.totalIncome` with `gross * multiplier`, the multiplier being chosen
from the lowercased frequency in the source order (12 for month-and-not-semi,
26 for bi, 52 for week, 24 for semi); in particular gross 10338.43 with
frequency Monthly gives 124061.16. -/
theorem C1_income_annualization (a : TaxAnalysisResult) (g : ℚ) (f : Str)
    (hg : a.currentGrossPay = some g) (hgpos : 0 < g)
    (hf : a.payFrequencyDetected = some f) (hfne : f ≠ []) :
    (strIncl (lowerL f) ("month".toList) = true →
      strIncl (lowerL f) ("semi".toList) = false →
      (usIncomeFix a).summary.totalIncome = g * 12) ∧
    ((strIncl (lowerL f) ("month".toList) && !strIncl (lowerL f) ("semi".toList)) = false →
      strIncl (lowerL f) ("bi".toList) = true →
      (usIncomeFix a).summary.totalIncome = g * 26) ∧
    ((strIncl (lowerL f) ("month".toList) && !strIncl (lowerL f) ("semi".toList)) = false →
      strIncl (lowerL f) ("bi".toList) = false →
      strIncl (lowerL f) ("week".toList) = true →
      (usIncomeFix a).summary.totalIncome = g * 52) ∧
    ((strIncl (lowerL f) ("month".toList) && !strIncl (lowerL f) ("semi".toList)) = false →
      strIncl (lowerL f) ("bi".toList) = false →
      strIncl (lowerL f) ("week".toList) = false →
      strIncl (lowerL f) ("semi".toList) = true →
      (usIncomeFix a).summary.totalIncome = g * 24) ∧
    (usIncomeFix exC1).summary.totalIncome = 124061.16 := by
  have hgne : g ≠ 0 := ne_of_gt hgpos
  refine ⟨?_, ?_, ?_, ?_, ?_⟩
  · intro h1 h2
    refine usIncomeFix_totalIncome a g f hg hgne hf hfne 12 ?_ (by norm_num)
    unfold usMultiplier
    rw [if_pos (by rw [h1, h2]; rfl)]
  · intro h1 h2
    refine usIncomeFix_totalIncome a g f hg hgne hf hfne 26 ?_ (by norm_num)
    unfold usMultiplier
    rw [if_neg (by simp only [h1]; exact Bool.false_ne_true), if_pos h2]
  · intro h1 h2 h3
    refine usIncomeFix_totalIncome a g f hg hgne hf hfne 52 ?_ (by norm_num)
    unfold usMultiplier
    rw [if_neg (by simp only [h1]; exact Bool.false_ne_true),
      if_neg (by simp only [h2]; exact Bool.false_ne_true), if_pos h3]
  · intro h1 h2 h3 h4
    refine usIncomeFix_totalIncome a g f hg hgne hf hfne 24 ?_ (by norm_num)
    unfold usMultiplier
    rw [if_neg (by simp only [h1]; exact Bool.false_ne_true),
      if_neg (by simp only [h2]; exact Bool.false_ne_true),
      if_neg (by simp only [h3]; exact Bool.false_ne_true), if_pos h4]
  · have := usIncomeFix_totalIncome exC1 10338.43 ("Monthly".toList) rfl (by norm_num) rfl
      (by decide) 12 (by decide) (by norm_num)
    rw [this]; norm_num

/-- Witness for C1 at the concrete example of the claim. -/
theorem C1_income_annualization_witness :
    (usIncomeFix exC1).summary.totalIncome = 124061.16 :=
  (C1_income_annualization exC1 10338.43 ("Monthly".toList) rfl (by norm_num) rfl
    (by decide)).2.2.2.2

/-- C2: the marginal rate used by the US corrector is looked up from the fixed
bracket chain on `summary.totalIncome`; the brackets are the seven of the
source, and income 150000 selects 0.24.  The final conjunct ties the lookup to
the corrector: the corrected deduction list is computed with
`usMarginalRate summary.totalIncome`. -/
theorem C2_marginal_rate_lookup (x : ℚ) :
    (x ≤ 11600 → usMarginalRate x = 0.10) ∧
    (11600 < x → x ≤ 47150 → usMarginalRate x = 0.12) ∧
    (47150 < x → x ≤ 100525 → usMarginalRate x = 0.22) ∧
    (100525 < x → x ≤ 191950 → usMarginalRate x = 0.24) ∧
    (191950 < x → x ≤ 243725 → usMarginalRate x = 0.32) ∧
    (243725 < x → x ≤ 609350 → usMarginalRate x = 0.35) ∧
    (609350 < x → usMarginalRate x = 0.37) ∧
    usMarginalRate 150000 = 0.24 ∧
    (∀ a : TaxAnalysisResult, a.deductions ≠ [] →
      (usDeductionsFixText a).deductions =
        a.deductions.map (usFixDeductionText (usMarginalRate a.summary.totalIncome))) := by
  refine ⟨?_, ?_, ?_, ?_, ?_, ?_, ?_, ?_, ?_⟩
  · intro h; unfold usMarginalRate; rw [if_pos h]
  · intro h1 h2; unfold usMarginalRate
    rw [if_neg (by linarith), if_pos h2]
  · intro h1 h2; unfold usMarginalRate
    rw [if_neg (by linarith), if_neg (by linarith), if_pos h2]
  · intro h1 h2; unfold usMarginalRate
    rw [if_neg (by linarith), if_neg (by linarith), if_neg (by linarith), if_pos h2]
  · intro h1 h2; unfold usMarginalRate
    rw [if_neg (by linarith), if_neg (by linarith), if_neg (by linarith),
      if_neg (by linarith), if_pos h2]
  · intro h1 h2; unfold usMarginalRate
    rw [if_neg (by linarith), if_neg (by linarith), if_neg (by linarith),
      if_neg (by linarith), if_neg (by linarith), if_pos h2]
  · intro h1; unfold usMarginalRate
    rw [if_neg (by linarith), if_neg (by linarith), if_neg (by linarith),
      if_neg (by linarith), if_neg (by linarith), if_neg (by linarith)]
  · norm_num [usMarginalRate]
  · intro a ha
    unfold usDeductionsFixText
    rw [if_pos ha]
    cases hu : a.usComparison <;> simp [hu]

/-- Witness for C2 at income 150000. -/
theorem C2_marginal_rate_lookup_witness : usMarginalRate 150000 = 0.24 :=
  (C2_marginal_rate_lookup 150000).2.2.2.1 (by norm_num) (by norm_num)

/-- The corrected deduction list of the text-path corrector is the map of the
per-deduction fix at the looked-up marginal rate. -/
theorem usDeductionsFixText_deductions (a : TaxAnalysisResult) (h : a.deductions ≠ []) :
    (usDeductionsFixText a).deductions =
      a.deductions.map (usFixDeductionText (usMarginalRate a.summary.totalIncome)) := by
  unfold usDeductionsFixText
  rw [if_pos h]
  cases hu : a.usComparison <;> simp [hu]

/-- Final summary savings of the text-path corrector: the sum of 401/HSA
contributions overwrites the model total exactly when the sum is positive and
the model total is zero or less than half the sum. -/
theorem usDeductionsFixText_potentialSavings (a : TaxAnalysisResult) (h : a.deductions ≠ []) :
    (usDeductionsFixText a).summary.potentialSavings =
      (if 0 < ((a.deductions.map
              (usFixDeductionText (usMarginalRate a.summary.totalIncome))).map
              usSavingsContribution).sum ∧
          (a.summary.potentialSavings = 0 ∨
            a.summary.potentialSavings <
              ((a.deductions.map
                (usFixDeductionText (usMarginalRate a.summary.totalIncome))).map
                usSavingsContribution).sum * 0.5) then
        ((a.deductions.map
          (usFixDeductionText (usMarginalRate a.summary.totalIncome))).map
          usSavingsContribution).sum
      else a.summary.potentialSavings) := by
  unfold usDeductionsFixText
  rw [if_pos h]
  cases hu : a.usComparison <;> · simp only [hu]
                                  split <;> simp_all

/-- The image-path corrector always ends with the summary savings equal to the
sum of the final deduction list savings. -/
theorem usPostProcessImage_potentialSavings (a : TaxAnalysisResult) :
    (usPostProcessImage a).summary.potentialSavings =
      ((usPostProcessImage a).deductions.map TaxSavingsItem.potentialSavings).sum := by
  unfold usPostProcessImage
  cases hu : (usIncomeFix a).usComparison <;> simp [hu]

/-- Evaluation of the recomputed 401(k) figure of the C3 example. -/
theorem exC3_taxSavings :
    jsRound (max 0 ((23000 : ℚ) - 1500) * usMarginalRate 150000) = 5160 := by
  have hrate : usMarginalRate (150000 : ℚ) = 0.24 := by norm_num [usMarginalRate]
  have hmax : max (0 : ℚ) (23000 - 1500) = 21500 := by norm_num
  rw [hrate, hmax]
  have h : (21500 : ℚ) * 0.24 = 5160 := by norm_num
  rw [h]
  exact_mod_cast jsRound_eval 5160 5160 (by norm_num) (by norm_num)

/-- The text-path fix leaves `exC3` unchanged: its model figure is neither zero
nor below half the recomputed figure. -/
theorem exC3_fix_unchanged : usFixDeductionText (usMarginalRate 150000) exC3 = exC3 := by
  have hrate : usMarginalRate (150000 : ℚ) = 0.24 := by norm_num [usMarginalRate]
  have hts : jsRound (max 0 ((23000 : ℚ) - 1500) * 0.24) = 5160 := by
    have := exC3_taxSavings
    rwa [show usMarginalRate (150000 : ℚ) = 0.24 from hrate] at this
  have c1 : strIncl (lowerL (("401(k)".toList))) ("roth ira".toList) = false := by decide
  have c2 : strIncl (lowerL (("401(k)".toList))) ("401".toList) = true := by decide
  rw [hrate]
  unfold usFixDeductionText
  simp only [exC3, Option.getD_some, c1, c2, Bool.false_eq_true, if_false, Bool.true_or,
    if_true, hts]
  norm_num

/-- C3 counterexample: the claim says every 401/HSA deduction is overwritten
with `round(gap * rate)`; on the text path a 401(k) deduction with gross gap
21500, rate 0.24 and model figure 5000 is kept at 5000, not 5160. -/
theorem C3_counterexample :
    strIncl (lowerL (exC3.category.getD [])) ("401".toList) = true ∧
    (usDeductionsFixText exC3A).deductions.map TaxSavingsItem.potentialSavings = [5000] ∧
    jsRound (max 0 (exC3.maxLimit - exC3.currentAmount) *
      usMarginalRate exC3A.summary.totalIncome) = 5160 ∧
    (5000 : ℚ) ≠ 5160 := by
  refine ⟨by decide, ?_, ?_, by norm_num⟩
  · rw [usDeductionsFixText_deductions exC3A (by simp [exC3A])]
    show [usFixDeductionText (usMarginalRate exC3A.summary.totalIncome) exC3].map
      TaxSavingsItem.potentialSavings = [5000]
    rw [show exC3A.summary.totalIncome = 150000 from rfl, exC3_fix_unchanged]
    rfl
  · rw [show exC3A.summary.totalIncome = 150000 from rfl,
      show exC3.maxLimit = 23000 from rfl, show exC3.currentAmount = 1500 from rfl]
    exact exC3_taxSavings

/-- C3 amended: on the text path a Roth IRA deduction receives the raw gap; a
non-Roth 401/HSA deduction is overwritten with `round(gap * rate)` only when
its model figure is 0 or less than half of that value, and is otherwise kept;
all other deductions are unchanged.  The 401(k) example of the claim
(gap 21500, rate 0.24, savings 5160) holds when the model figure is 0. -/
theorem C3_amended_deduction_fix (rate : ℚ) (d : TaxSavingsItem) :
    (strIncl (lowerL (d.category.getD [])) ("roth ira".toList) = true →
      usFixDeductionText rate d =
        { d with potentialSavings := max 0 (d.maxLimit - d.currentAmount) }) ∧
    (strIncl (lowerL (d.category.getD [])) ("roth ira".toList) = false →
      (strIncl (lowerL (d.category.getD [])) ("401".toList) ||
        strIncl (lowerL (d.category.getD [])) ("hsa".toList)) = true →
      usFixDeductionText rate d =
        (if d.potentialSavings = 0 ∨ d.potentialSavings <
            jsRound (max 0 (d.maxLimit - d.currentAmount) * rate) * 0.5 then
          { d with potentialSavings := jsRound (max 0 (d.maxLimit - d.currentAmount) * rate) }
        else d)) ∧
    (strIncl (lowerL (d.category.getD [])) ("roth ira".toList) = false →
      (strIncl (lowerL (d.category.getD [])) ("401".toList) ||
        strIncl (lowerL (d.category.getD [])) ("hsa".toList)) = false →
      usFixDeductionText rate d = d) ∧
    (usFixDeductionText (usMarginalRate 150000) exC3zero).potentialSavings = 5160 := by
  refine ⟨?_, ?_, ?_, ?_⟩
  · intro h1
    unfold usFixDeductionText
    rw [if_pos h1]
  · intro h1 h2
    unfold usFixDeductionText
    rw [if_neg (by simp only [h1]; exact Bool.false_ne_true), if_pos h2]
  · intro h1 h2
    unfold usFixDeductionText
    rw [if_neg (by simp only [h1]; exact Bool.false_ne_true),
      if_neg (by simp only [h2]; exact Bool.false_ne_true)]
  · have hrate : usMarginalRate (150000 : ℚ) = 0.24 := by norm_num [usMarginalRate]
    have hts : jsRound (max 0 ((23000 : ℚ) - 1500) * 0.24) = 5160 := by
      have := exC3_taxSavings
      rwa [hrate] at this
    have c1 : strIncl (lowerL (("401(k)".toList))) ("roth ira".toList) = false := by decide
    have c2 : strIncl (lowerL (("401(k)".toList))) ("401".toList) = true := by decide
    rw [hrate]
    unfold usFixDeductionText
    simp only [exC3zero, exC3, Option.getD_some, c1, c2, Bool.false_eq_true, if_false,
      Bool.true_or, if_true, hts]
    norm_num

/-- Witness for the amended C3 at a concrete Roth IRA deduction. -/
theorem C3_amended_deduction_fix_witness :
    usFixDeductionText 0.24 dC3roth =
      { dC3roth with potentialSavings := max 0 (dC3roth.maxLimit - dC3roth.currentAmount) } :=
  (C3_amended_deduction_fix 0.24 dC3roth).1 (by decide)

/-- C4 counterexample.  Image path: the summary total 10000 is neither zero nor
below half of the recomputed 6156, yet the corrector overwrites it with 6156.
Text path: the recomputed 401/HSA sum is 0 and the model total is negative, so
the stated condition (total below half the sum) holds, yet the corrector
leaves the total at -100. -/
theorem C4_counterexample :
    (usPostProcessImage exC4img).summary.potentialSavings = 6156 ∧
    exC4img.summary.potentialSavings = 10000 ∧
    ¬((10000 : ℚ) = 0 ∨ (10000 : ℚ) < 6156 * 0.5) ∧
    (usDeductionsFixText exC4txt).summary.potentialSavings = -100 ∧
    ((exC4txt.deductions.map
      (usFixDeductionText (usMarginalRate exC4txt.summary.totalIncome))).map
      usSavingsContribution).sum = 0 ∧
    ((-100 : ℚ) = 0 ∨ (-100 : ℚ) < 0 * 0.5) := by
  have hrate : usMarginalRate (150000 : ℚ) = 0.24 := by norm_num [usMarginalRate]
  have h1 : usFixDeductionImage 0.24 dC4a = { dC4a with potentialSavings := 5160 } := by
    unfold usFixDeductionImage
    rw [if_pos (by decide)]
    have h : jsRound (max 0 ((dC4a.maxLimit : ℚ) - dC4a.currentAmount) * 0.24) = 5160 := by
      show jsRound (max 0 ((23000 : ℚ) - 1500) * 0.24) = 5160
      rw [show max (0:ℚ) (23000 - 1500) = 21500 by norm_num,
        show (21500 : ℚ) * 0.24 = 5160 by norm_num]
      exact_mod_cast jsRound_eval 5160 5160 (by norm_num) (by norm_num)
    rw [h]
  have h2 : usFixDeductionImage 0.24 dC4b = { dC4b with potentialSavings := 996 } := by
    unfold usFixDeductionImage
    rw [if_pos (by decide)]
    have h : jsRound (max 0 ((dC4b.maxLimit : ℚ) - dC4b.currentAmount) * 0.24) = 996 := by
      show jsRound (max 0 ((4150 : ℚ) - 0) * 0.24) = 996
      rw [show max (0:ℚ) (4150 - 0) = 4150 by norm_num,
        show (4150 : ℚ) * 0.24 = 996 by norm_num]
      exact_mod_cast jsRound_eval 996 996 (by norm_num) (by norm_num)
    rw [h]
  have hroth : usFixDeductionText (usMarginalRate 150000) dC4roth =
      { dC4roth with potentialSavings := 0 } := by
    unfold usFixDeductionText
    rw [if_pos (by decide)]
    have h : max (0:ℚ) ((dC4roth.maxLimit : ℚ) - dC4roth.currentAmount) = 0 := by
      show max (0:ℚ) (7000 - 7000) = 0
      norm_num
    rw [h]
  have hfiximg : usIncomeFix exC4img = exC4img := rfl
  refine ⟨?_, rfl, by norm_num, ?_, ?_, by norm_num⟩
  · unfold usPostProcessImage
    rw [hfiximg]
    simp only [show exC4img.summary.totalIncome = 150000 from rfl, hrate,
      show exC4img.deductions = [dC4a, dC4b] from rfl,
      List.map_cons, List.map_nil, h1, h2]
    rw [if_pos (by decide), if_pos (by decide)]
    simp only [show exC4img.usComparison = none from rfl]
    simp only [List.map_cons, List.map_nil, List.sum_cons, List.sum_nil]
    norm_num
  · rw [usDeductionsFixText_potentialSavings exC4txt (by simp [exC4txt])]
    simp only [show exC4txt.deductions = [dC4roth] from rfl,
      show exC4txt.summary.totalIncome = 150000 from rfl,
      List.map_cons, List.map_nil, hroth, List.sum_cons, List.sum_nil]
    rw [if_neg]
    · rfl
    · intro hc
      rcases hc with ⟨hpos, _⟩
      have hz : usSavingsContribution { dC4roth with potentialSavings := 0 } = 0 := by decide
      rw [hz] at hpos
      norm_num at hpos
  · simp only [show exC4txt.deductions = [dC4roth] from rfl,
      show exC4txt.summary.totalIncome = 150000 from rfl,
      List.map_cons, List.map_nil, hroth, List.sum_cons, List.sum_nil]
    have hz : usSavingsContribution { dC4roth with potentialSavings := 0 } = 0 := by decide
    rw [hz]
    norm_num

/-- C4 amended: on the text path the corrector overwrites the summary total
with the corrected 401/HSA sum exactly when the sum is positive and the model
total is 0 or less than half the sum, and leaves it unchanged otherwise; on
the image path the corrector always overwrites the summary total with the sum
of the savings of the final deduction list. -/
theorem C4_amended_summary_overwrite (a : TaxAnalysisResult) (h : a.deductions ≠ []) :
    ((usDeductionsFixText a).summary.potentialSavings =
      (if 0 < ((a.deductions.map
              (usFixDeductionText (usMarginalRate a.summary.totalIncome))).map
              usSavingsContribution).sum ∧
          (a.summary.potentialSavings = 0 ∨
            a.summary.potentialSavings <
              ((a.deductions.map
                (usFixDeductionText (usMarginalRate a.summary.totalIncome))).map
                usSavingsContribution).sum * 0.5) then
        ((a.deductions.map
          (usFixDeductionText (usMarginalRate a.summary.totalIncome))).map
          usSavingsContribution).sum
      else a.summary.potentialSavings)) ∧
    (∀ b : TaxAnalysisResult, (usPostProcessImage b).summary.potentialSavings =
      ((usPostProcessImage b).deductions.map TaxSavingsItem.potentialSavings).sum) :=
  ⟨usDeductionsFixText_potentialSavings a h, fun b => usPostProcessImage_potentialSavings b⟩

/-- Witness for the amended C4, instantiated at the concrete C4 records. -/
theorem C4_amended_summary_overwrite_witness :
    (usPostProcessImage exC4img).summary.potentialSavings =
      ((usPostProcessImage exC4img).deductions.map TaxSavingsItem.potentialSavings).sum :=
  (C4_amended_summary_overwrite exC4txt (by simp [exC4txt])).2 exC4img

/-- C6 counterexample: with no API key configured, analyzeTaxDocument throws
the configuration error even though the reply text does contain a JSON-object
match, refuting "throws if and only if the response text has no JSON object". -/
theorem C6_counterexample :
    analyzeStage none (some ("rules".toList)) true [] [lbrace, rbrace] =
      .error ("OpenAI API key not configured. Please add it in Vercel Environment Variables.".toList) ∧
    jsonMatchStr [lbrace, rbrace] = some [lbrace, rbrace] := by
  constructor
  · rfl
  · decide

/-- C6 amended: once the API key and the dynamic rules are configured and the
HTTP response is OK, the stage fails exactly when the reply text has no
JSON-object match, and then with the single generic parse error; when a match
exists the stage returns it (to be handed to JSON.parse).  Missing key,
missing rules and a failed HTTP response are further, earlier failure modes. -/
theorem C6_amended_parse_failure (apiKey dynamicRules : Option Str) (ok : Bool)
    (errBody text : Str)
    (hk : jsTruthyStr apiKey = true) (hr : jsTruthyStr dynamicRules = true)
    (hok : ok = true) :
    (analyzeStage apiKey dynamicRules ok errBody text =
        .error ("Could not parse tax analysis response".toList) ↔
      jsonMatchStr text = none) ∧
    (∀ s, jsonMatchStr text = some s →
      analyzeStage apiKey dynamicRules ok errBody text = .ok s) := by
  unfold analyzeStage
  rw [hk, hok]
  simp only [hr, Bool.not_true, Bool.false_eq_true, if_false]
  constructor
  · cases hj : jsonMatchStr text <;> simp [hj]
  · intro s hs
    rw [hs]

/-- Witness for the amended C6: configured stage with an empty reply fails with
the generic parse error. -/
theorem C6_amended_parse_failure_witness :
    analyzeStage (some ("key".toList)) (some ("rules".toList)) true [] [] =
      .error ("Could not parse tax analysis response".toList) :=
  (C6_amended_parse_failure (some ("key".toList)) (some ("rules".toList)) true [] []
    (by decide) (by decide) rfl).1.mpr rfl

/-- C7 counterexample: a stored timestamp of 0 is treated as absent by the
JavaScript falsiness test, so canGenerateReport returns true one hour after a
"report" stamped 0, although fewer than 24 hours have elapsed. -/
theorem C7_counterexample :
    canGenerateReport (some 0) 3600000 = true ∧
    ((3600000 : ℚ) - 0) / (1000 * 60 * 60) < 24 := by
  constructor
  · simp [canGenerateReport]
  · norm_num

/-- C7 amended: canGenerateReport is true when no timestamp is stored or the
stored timestamp is 0; for a nonzero stored timestamp it is false when fewer
than 24 hours have elapsed and true when at least 24 hours have elapsed. -/
theorem C7_amended_rate_limit (ts : Option ℚ) (t now : ℚ) :
    (ts = none → canGenerateReport ts now = true) ∧
    (ts = some 0 → canGenerateReport ts now = true) ∧
    (ts = some t → t ≠ 0 → (now - t) / (1000 * 60 * 60) < 24 →
      canGenerateReport ts now = false) ∧
    (ts = some t → t ≠ 0 → (now - t) / (1000 * 60 * 60) ≥ 24 →
      canGenerateReport ts now = true) := by
  refine ⟨?_, ?_, ?_, ?_⟩
  · intro h; rw [h]; rfl
  · intro h; rw [h]; simp [canGenerateReport]
  · intro h ht hlt
    rw [h]
    simp only [canGenerateReport]
    rw [if_neg ht]
    simpa using not_le.mpr hlt
  · intro h ht hge
    rw [h]
    simp only [canGenerateReport]
    rw [if_neg ht]
    simpa using hge

/-- Witness for the amended C7 at concrete timestamps. -/
theorem C7_amended_rate_limit_witness :
    canGenerateReport none 0 = true ∧
    canGenerateReport (some 1) 90000000 = true ∧
    canGenerateReport (some 1) 50000000 = false :=
  ⟨(C7_amended_rate_limit none 0 0).1 rfl,
   (C7_amended_rate_limit (some 1) 1 90000000).2.2.2 rfl (by norm_num) (by norm_num),
   (C7_amended_rate_limit (some 1) 1 50000000).2.2.1 rfl (by norm_num) (by norm_num)⟩

/-- C8: addLead preserves every previously stored lead, appends exactly one
lead carrying the supplied email, date, mode and estimated savings together
with the generated id, and no other store operation modifies an existing
lead: the only transitions of the leads list are the append of addLead and
the reset of clearLeads; the four remaining store operations leave the list
untouched. -/
theorem C8_leads_append_only (s : TaxStoreState) (input : LeadInput) (now : ℤ)
    (rand : Str) (m : CountryMode) (ts : Option ℚ) (e : Str) :
    ((addLead s input now rand).leads.length = s.leads.length + 1) ∧
    (∀ i, i < s.leads.length → (addLead s input now rand).leads[i]? = s.leads[i]?) ∧
    ((addLead s input now rand).leads[s.leads.length]? =
      some { id := genLeadId now rand, email := input.email, date := input.date,
             mode := input.mode, estimatedSavings := input.estimatedSavings }) ∧
    ((clearLeads s).leads = []) ∧
    ((setCountryMode s m).leads = s.leads) ∧
    ((setLastReportTimestamp s ts).leads = s.leads) ∧
    ((setUnlockedEmail s e).leads = s.leads) ∧
    ((clearUnlockedEmail s).leads = s.leads) := by
  refine ⟨?_, ?_, ?_, rfl, rfl, rfl, rfl, rfl⟩
  · simp [addLead]
  · intro i hi
    unfold addLead
    simp only
    rw [List.getElem?_append_left hi]
  · unfold addLead
    simp only
    rw [List.getElem?_append_right (le_refl _)]
    simp

/-- Witness for C8 at a concrete one-lead store. -/
theorem C8_leads_append_only_witness :
    (addLead
      { countryMode := .us,
        leads := [{ id := ("a".toList), email := ("b".toList), date := ("c".toList),
                    mode := .us, estimatedSavings := 1 }],
        lastReportTimestamp := none, unlockedEmail := none }
      { email := ("x".toList), date := ("y".toList), mode := .india, estimatedSavings := 2 }
      5 ("r".toList)).leads[0]? =
      [{ id := ("a".toList), email := ("b".toList), date := ("c".toList),
         mode := CountryMode.us, estimatedSavings := (1 : ℚ) }][0]? :=
  (C8_leads_append_only
    { countryMode := .us,
      leads := [{ id := ("a".toList), email := ("b".toList), date := ("c".toList),
                  mode := .us, estimatedSavings := 1 }],
      lastReportTimestamp := none, unlockedEmail := none }
    { email := ("x".toList), date := ("y".toList), mode := .india, estimatedSavings := 2 }
    5 ("r".toList) .us none []).2.1 0 (by simp)

/-! ## Shape lemmas -/
/-- A successful shape test needs at least `preds.length` characters. -/
theorem shapeAt_length {ps : List (Char → Bool)} {l : Str} (h : shapeAt ps l = true) :
    ps.length ≤ l.length := by
  induction ps generalizing l with
  | nil => simp
  | cons p ps ih =>
    cases l with
    | nil => simp [shapeAt] at h
    | cons c cs =>
      simp only [shapeAt, Bool.and_eq_true] at h
      have := ih h.2
      simp only [List.length_cons]
      omega

/-- The shape test fails as soon as one position fails its predicate. -/
theorem shapeAt_false_at {ps : List (Char → Bool)} {l : Str} {i : Nat} {p : Char → Bool}
    {c : Char} (hp : ps[i]? = some p) (hc : l[i]? = some c) (hpc : p c = false) :
    shapeAt ps l = false := by
  induction ps generalizing l i with
  | nil => simp at hp
  | cons q qs ih =>
    cases l with
    | nil => rfl
    | cons d ds =>
      cases i with
      | zero =>
        simp only [List.getElem?_cons_zero, Option.some.injEq] at hp hc
        subst hp; subst hc
        simp [shapeAt, hpc]
      | succ j =>
        simp only [List.getElem?_cons_succ] at hp hc
        simp [shapeAt, ih hp hc]

/-- A successful shape test satisfies every positional predicate. -/
theorem shapeAt_true_at {ps : List (Char → Bool)} {l : Str} (h : shapeAt ps l = true)
    {i : Nat} {p : Char → Bool} (hp : ps[i]? = some p) :
    ∃ c, l[i]? = some c ∧ p c = true := by
  induction ps generalizing l i with
  | nil => simp at hp
  | cons q qs ih =>
    cases l with
    | nil => simp [shapeAt] at h
    | cons d ds =>
      simp only [shapeAt, Bool.and_eq_true] at h
      cases i with
      | zero =>
        simp only [List.getElem?_cons_zero, Option.some.injEq] at hp
        subst hp
        exact ⟨d, by simp, h.1⟩
      | succ j =>
        simp only [List.getElem?_cons_succ] at hp ⊢
        exact ih h.2 hp

/-- The shape test only looks at the first `preds.length` characters. -/
theorem shapeAt_congr {ps : List (Char → Bool)} {l l2 : Str}
    (h : ∀ i, i < ps.length → l[i]? = l2[i]?) :
    shapeAt ps l = shapeAt ps l2 := by
  induction ps generalizing l l2 with
  | nil => rfl
  | cons q qs ih =>
    have h0 := h 0 (by simp)
    cases l with
    | nil =>
      cases l2 with
      | nil => rfl
      | cons d2 ds2 => simp at h0
    | cons d ds =>
      cases l2 with
      | nil => simp at h0
      | cons d2 ds2 =>
        simp only [List.getElem?_cons_zero, Option.some.injEq] at h0
        subst h0
        have : shapeAt qs ds = shapeAt qs ds2 :=
          ih (fun i hi => by
            have := h (i + 1) (by simpa using Nat.succ_lt_succ hi)
            simpa using this)
        simp [shapeAt, this]

/-- A failed shape test makes the whole match test fail. -/
theorem matchAtP_false_of_shape {P : Pat} {prev : Option Char} {l : Str}
    (h : shapeAt P.preds l = false) : matchAtP P prev l = false := by
  simp [matchAtP, h]

/-- The match test only looks at `prev` and the first `preds.length + 1`
characters. -/
theorem matchAtP_congr {P : Pat} {prev : Option Char} {l l2 : Str}
    (h : ∀ i, i ≤ P.preds.length → l[i]? = l2[i]?) :
    matchAtP P prev l = matchAtP P prev l2 := by
  unfold matchAtP
  rw [shapeAt_congr (fun i hi => h i (le_of_lt hi)), h P.preds.length (le_refl _)]

/-- Pointwise agreement from `take` agreement. -/
theorem getElem?_of_take_eq {l l2 : Str} {k : Nat} (h : l.take k = l2.take k) {i : Nat}
    (hi : i < k) : l[i]? = l2[i]? := by
  rw [← List.getElem?_take_of_lt (l := l) hi, ← List.getElem?_take_of_lt (l := l2) hi, h]

/-- Skipping is dropping. -/
theorem scanGo_skip_eq (P : Pat) :
    ∀ (l : Str) (k : Nat) (p : Option Char),
      scanGo P p l k = scanGo P (skipPrev p l k) (l.drop k) 0 := by
  intro l
  induction l with
  | nil => intro k p; cases k <;> rfl
  | cons c cs ih =>
    intro k p
    cases k with
    | zero => rfl
    | succ j => exact ih j (some c)

/-- The skipped-over previous character is the last skipped character. -/
theorem skipPrev_getElem (p : Option Char) :
    ∀ (l : Str) (k : Nat), k ≤ l.length →
      skipPrev p l k = if k = 0 then p else l[k - 1]? := by
  intro l
  induction l generalizing p with
  | nil =>
    intro k hk
    have hk0 : k = 0 := by simpa using hk
    subst hk0
    rfl
  | cons c cs ih =>
    intro k hk
    cases k with
    | zero => rfl
    | succ j =>
      show skipPrev (some c) cs j = _
      rw [ih (some c) j (by simpa using Nat.lt_succ_iff.mp (Nat.lt_succ_of_le hk))]
      cases j with
      | zero => simp
      | succ i => simp

/-- Scan of the empty text. -/
theorem scanGo_nil (P : Pat) (p : Option Char) (k : Nat) : scanGo P p [] k = (0, []) := rfl

/-- Step lemma, no match at the head. -/
theorem scan_step_neg (P : Pat) (p : Option Char) (c : Char) (cs : Str)
    (h : matchAtP P p (c :: cs) = false) :
    scanGo P p (c :: cs) 0 = ((scanGo P (some c) cs 0).1, c :: (scanGo P (some c) cs 0).2) := by
  simp [scanGo, h]

/-- Step lemma, match at the head: the scan records one match, emits the
placeholder, and resumes after the matched characters with the last matched
character as the new look-behind. -/
theorem scan_step_pos (P : Pat) (m : Nat) (hm : P.preds.length = m + 1)
    (p : Option Char) (c : Char) (cs : Str) (h : matchAtP P p (c :: cs) = true) :
    scanGo P p (c :: cs) 0 =
      ((scanGo P ((c :: cs)[m]?) (cs.drop m) 0).1 + 1,
        P.ph ++ (scanGo P ((c :: cs)[m]?) (cs.drop m) 0).2) := by
  have hsh : shapeAt P.preds (c :: cs) = true := by
    have := h
    unfold matchAtP at this
    simp only [Bool.and_eq_true] at this
    exact this.1.2
  have hlen : m + 1 ≤ cs.length + 1 := by
    have := shapeAt_length hsh
    simpa [hm] using this
  have hskip : scanGo P (some c) cs (P.preds.length - 1) =
      scanGo P ((c :: cs)[m]?) (cs.drop m) 0 := by
    rw [hm]
    simp only [Nat.add_sub_cancel]
    rw [scanGo_skip_eq P cs m (some c)]
    rw [skipPrev_getElem (some c) cs m (by omega)]
    cases m with
    | zero => simp
    | succ i => simp
  simp only [scanGo, h, if_true, hskip]

/-- Patterns without boundaries never read the look-behind. -/
theorem matchAtP_bdry_false {P : Pat} (hb : P.bdry = false) (p : Option Char) (l : Str) :
    matchAtP P p l = shapeAt P.preds l := by
  simp [matchAtP, hb]

/-- For a pattern without boundaries the scan ignores the look-behind. -/
theorem scanGo_prev_irrel_bdry_false (P : Pat) (hb : P.bdry = false) :
    ∀ (l : Str) (k : Nat) (p q : Option Char), scanGo P p l k = scanGo P q l k := by
  intro l k p q
  cases l with
  | nil => rfl
  | cons c cs =>
    cases k with
    | succ j => rfl
    | zero =>
      simp only [scanGo, matchAtP_bdry_false hb]

/-- When the head character fails the first predicate, the scan step is
independent of the look-behind. -/
theorem scanGo_prev_irrel_head_fail (P : Pat) (p0 : Char → Bool)
    (h0 : P.preds[0]? = some p0) (c : Char) (cs : Str) (hc : p0 c = false)
    (p q : Option Char) :
    scanGo P p (c :: cs) 0 = scanGo P q (c :: cs) 0 := by
  have hsh : shapeAt P.preds (c :: cs) = false :=
    shapeAt_false_at h0 (by simp) hc
  simp only [scanGo, matchAtP_false_of_shape hsh]

/-- Walk lemma: when no match of `P` can start anywhere inside `u` (whatever
follows it), scanning `u ++ t` copies `u` and continues on `t` with the last
character of `u` as look-behind. -/
theorem scanGo_walk (P : Pat) :
    ∀ (u : Str)
      (hu : ∀ j, j < u.length → ∀ (q : Option Char) (t2 : Str),
        matchAtP P q (u.drop j ++ t2) = false)
      (q : Option Char) (t : Str),
      scanGo P q (u ++ t) 0 =
        ((scanGo P (skipPrev q u u.length) t 0).1,
          u ++ (scanGo P (skipPrev q u u.length) t 0).2) := by
  intro u
  induction u with
  | nil => intro _ q t; simp [skipPrev]
  | cons c u' ih =>
    intro hu q t
    have h0 : matchAtP P q (c :: (u' ++ t)) = false := by
      have := hu 0 (by simp) q t
      simpa using this
    rw [show (c :: u') ++ t = c :: (u' ++ t) from rfl, scan_step_neg P q c (u' ++ t) h0]
    have hu' : ∀ j, j < u'.length → ∀ (q2 : Option Char) (t2 : Str),
        matchAtP P q2 (u'.drop j ++ t2) = false := by
      intro j hj q2 t2
      have := hu (j + 1) (by simpa using Nat.succ_lt_succ hj) q2 t2
      simpa using this
    rw [ih hu' (some c) t]
    rfl

/-- Prefix lemma: for any `k`, the scan output agrees with the input on the
first `k` characters, unless a match occurred inside that window; in that
case there is a position `i < k` where the output carries the placeholder
opening bracket, the texts agree strictly before `i`, and a match of `P`
started at position `i` of the input (with the correct look-behind). -/
theorem scanOut_prefix (P : Pat) (hn : P.preds ≠ []) (hph : P.ph[0]? = some '[') :
    ∀ (N : Nat) (l : Str), l.length ≤ N → ∀ (p : Option Char) (k : Nat),
      (scanOut P p l).take k = l.take k ∨
      ∃ i, i < k ∧ (scanOut P p l).take i = l.take i ∧
        (scanOut P p l)[i]? = some '[' ∧
        matchAtP P (prevAt p l i) (l.drop i) = true := by
  intro N
  induction N with
  | zero =>
    intro l hl p k
    have : l = [] := List.length_eq_zero.mp (Nat.le_zero.mp hl)
    subst this
    left
    rfl
  | succ N ih =>
    intro l hl p k
    cases l with
    | nil => left; rfl
    | cons c cs =>
      obtain ⟨m, hm⟩ : ∃ m, P.preds.length = m + 1 :=
        ⟨P.preds.length - 1, (Nat.succ_pred_eq_of_pos (List.length_pos.mpr hn)).symm⟩
      cases hmt : matchAtP P p (c :: cs) with
      | true =>
        cases k with
        | zero => left; rfl
        | succ k' =>
          right
          refine ⟨0, Nat.succ_pos _, rfl, ?_, ?_⟩
          · unfold scanOut
            rw [scan_step_pos P m hm p c cs hmt]
            simp only
            have hphlen : 0 < P.ph.length := by
              cases hpl : P.ph with
              | nil => rw [hpl] at hph; simp at hph
              | cons x xs => simp
            rw [List.getElem?_append_left hphlen]
            exact hph
          · simpa [prevAt] using hmt
      | false =>
        have hout : scanOut P p (c :: cs) = c :: scanOut P (some c) cs := by
          unfold scanOut
          rw [scan_step_neg P p c cs hmt]
        cases k with
        | zero => left; rfl
        | succ k' =>
          rcases ih cs (by simpa using Nat.lt_succ_iff.mp (Nat.lt_succ_of_le hl)) (some c) k' with
            h | ⟨i, hi, h1, h2, h3⟩
          · left
            rw [hout]
            simp only [List.take_succ_cons, h]
          · right
            refine ⟨i + 1, Nat.succ_lt_succ hi, ?_, ?_, ?_⟩
            · rw [hout]
              simp only [List.take_succ_cons, h1]
            · rw [hout]
              simpa using h2
            · have hp : prevAt p (c :: cs) (i + 1) = prevAt (some c) cs i := by
                unfold prevAt
                cases i with
                | zero => simp
                | succ j => simp
              rw [hp]
              simpa using h3

/-- A true boundary match has a non-word (or absent) look-behind. -/
theorem matchAtP_true_nWord {P : Pat} (hb : P.bdry = true) {q : Option Char} {l : Str}
    (h : matchAtP P q l = true) : nWord q = true := by
  unfold matchAtP at h
  rw [hb] at h
  simp only [Bool.not_true, Bool.false_or, Bool.and_eq_true] at h
  exact h.1.1

/-- A true match has a true shape. -/
theorem matchAtP_true_shape {P : Pat} {q : Option Char} {l : Str}
    (h : matchAtP P q l = true) : shapeAt P.preds l = true := by
  unfold matchAtP at h
  simp only [Bool.and_eq_true] at h
  exact h.1.2

/-- Rescan-head lemma: if no match of `P` starts at `c` in the original text,
then no match of `P` starts at `c` in the text whose tail has been globally
replaced (with the same look-behind).  The placeholder shields itself with its
brackets, and a replacement starting exactly at the boundary-test position is
ruled out by the `\\b` of the replaced match. -/
theorem rescan_head_false (P : Pat) (hn : P.preds ≠ []) (hph : P.ph[0]? = some '[')
    (hD : ∀ (i : Nat) (p0 : Char → Bool), P.preds[i]? = some p0 → p0 '[' = false)
    (hE : P.bdry = true → ∀ (pl : Char → Bool), P.preds[P.preds.length - 1]? = some pl →
      ∀ (d : Char), pl d = true → isWordCh d = true)
    (p : Option Char) (c : Char) (cs : Str)
    (h : matchAtP P p (c :: cs) = false) :
    matchAtP P p (c :: scanOut P (some c) cs) = false := by
  obtain ⟨m, hm⟩ : ∃ m, P.preds.length = m + 1 :=
    ⟨P.preds.length - 1, (Nat.succ_pred_eq_of_pos (List.length_pos.mpr hn)).symm⟩
  set out' := scanOut P (some c) cs with hout'
  cases hb : P.bdry with
  | false =>
    rcases scanOut_prefix P hn hph cs.length cs (le_refl _) (some c) m with
      htk | ⟨i, hi, h1, h2, h3⟩
    · have hsh : shapeAt P.preds (c :: out') = shapeAt P.preds (c :: cs) := by
        refine shapeAt_congr (fun i hi => ?_)
        cases i with
        | zero => simp
        | succ j =>
          simp only [List.getElem?_cons_succ]
          exact getElem?_of_take_eq htk (by omega)
      rw [matchAtP_bdry_false hb, hsh, ← matchAtP_bdry_false hb p]
      exact h
    · have hp1 : ∃ p1, P.preds[i + 1]? = some p1 := by
        rw [List.getElem?_eq_getElem (by omega)]
        exact ⟨_, rfl⟩
      obtain ⟨p1, hp1⟩ := hp1
      refine matchAtP_false_of_shape (shapeAt_false_at hp1 ?_ (hD (i + 1) p1 hp1))
      simpa using h2
  | true =>
    rcases scanOut_prefix P hn hph cs.length cs (le_refl _) (some c) (m + 1) with
      htk | ⟨i, hi, h1, h2, h3⟩
    · have hcongr : ∀ i, i ≤ P.preds.length → (c :: out')[i]? = (c :: cs)[i]? := by
        intro i hile
        cases i with
        | zero => simp
        | succ j =>
          simp only [List.getElem?_cons_succ]
          exact getElem?_of_take_eq htk (by omega)
      rw [matchAtP_congr hcongr]
      exact h
    · rcases Nat.lt_succ_iff_lt_or_eq.mp hi with hilt | hieq
      · have hp1 : ∃ p1, P.preds[i + 1]? = some p1 := by
          rw [List.getElem?_eq_getElem (by omega)]
          exact ⟨_, rfl⟩
        obtain ⟨p1, hp1⟩ := hp1
        refine matchAtP_false_of_shape (shapeAt_false_at hp1 ?_ (hD (i + 1) p1 hp1))
        simpa using h2
      · subst hieq
        by_contra htr
        have htr' : matchAtP P p (c :: out') = true := by
          cases hmm : matchAtP P p (c :: out') with
          | true => rfl
          | false => exact absurd hmm htr
        have hshape := matchAtP_true_shape htr'
        have hpl : ∃ pl, P.preds[i]? = some pl := by
          rw [List.getElem?_eq_getElem (by omega)]
          exact ⟨_, rfl⟩
        obtain ⟨pl, hpl⟩ := hpl
        obtain ⟨d, hd, hpld⟩ := shapeAt_true_at hshape hpl
        have hw : isWordCh d = true := hE hb pl (by rw [hm]; simpa using hpl) d hpld
        have hnw : nWord (prevAt (some c) cs i) = true := matchAtP_true_nWord hb h3
        have hprev : prevAt (some c) cs i = some d := by
          unfold prevAt
          rcases i with _ | j
          · simpa using hd
          · rw [if_neg (Nat.succ_ne_zero j), Nat.succ_sub_one]
            have hjj : out'[j]? = cs[j]? := getElem?_of_take_eq h1 (by omega)
            rw [← hjj]
            simpa using hd
        rw [hprev] at hnw
        simp only [nWord, Bool.not_eq_true'] at hnw
        rw [hw] at hnw
        simp at hnw

/-- A true boundary match has a non-word (or absent) character right after the
matched characters. -/
theorem matchAtP_true_nWord_after {P : Pat} (hb : P.bdry = true) {q : Option Char} {l : Str}
    (h : matchAtP P q l = true) : nWord l[P.preds.length]? = true := by
  unfold matchAtP at h
  rw [hb] at h
  simp only [Bool.not_true, Bool.false_or, Bool.and_eq_true] at h
  exact h.2

/-- Zero-remaining lemma: rescanning the globally replaced text (with the same
initial look-behind) finds no match at all. -/
theorem scan_rescan_zero (P : Pat) (hn : P.preds ≠ []) (hph : P.ph[0]? = some '[')
    (hD : ∀ (i : Nat) (p0 : Char → Bool), P.preds[i]? = some p0 → p0 '[' = false)
    (hE : P.bdry = true → ∀ (pl : Char → Bool), P.preds[P.preds.length - 1]? = some pl →
      ∀ (d : Char), pl d = true → isWordCh d = true)
    (hShield : ∀ (j : Nat), j < P.ph.length → ∀ (q : Option Char) (t : Str),
      matchAtP P q (P.ph.drop j ++ t) = false)
    (hC : P.bdry = true → ∀ (p0 : Char → Bool), P.preds[0]? = some p0 →
      ∀ (d : Char), p0 d = true → isWordCh d = true) :
    ∀ (N : Nat) (l : Str), l.length ≤ N → ∀ (p : Option Char),
      scanCount P p (scanOut P p l) = 0 := by
  intro N
  induction N with
  | zero =>
    intro l hl p
    have : l = [] := List.length_eq_zero.mp (Nat.le_zero.mp hl)
    subst this
    rfl
  | succ N ih =>
    intro l hl p
    cases l with
    | nil => rfl
    | cons c cs =>
      cases hmt : matchAtP P p (c :: cs) with
      | false =>
        have hout : scanOut P p (c :: cs) = c :: scanOut P (some c) cs := by
          unfold scanOut
          rw [scan_step_neg P p c cs hmt]
        have hres : matchAtP P p (c :: scanOut P (some c) cs) = false :=
          rescan_head_false P hn hph hD hE p c cs hmt
        rw [hout]
        unfold scanCount
        rw [scan_step_neg P p c _ hres]
        exact ih cs (by simpa using Nat.lt_succ_iff.mp (Nat.lt_succ_of_le hl)) (some c)
      | true =>
        obtain ⟨m, hm⟩ : ∃ m, P.preds.length = m + 1 :=
          ⟨P.preds.length - 1, (Nat.succ_pred_eq_of_pos (List.length_pos.mpr hn)).symm⟩
        have hout : scanOut P p (c :: cs) =
            P.ph ++ scanOut P ((c :: cs)[m]?) (cs.drop m) := by
          unfold scanOut
          rw [scan_step_pos P m hm p c cs hmt]
        rw [hout]
        unfold scanCount
        rw [scanGo_walk P P.ph hShield p (scanOut P ((c :: cs)[m]?) (cs.drop m))]
        show (scanGo P (skipPrev p P.ph P.ph.length)
          (scanOut P ((c :: cs)[m]?) (cs.drop m)) 0).1 = 0
        have hlen2 : (cs.drop m).length ≤ N := by
          have h1 : (cs.drop m).length ≤ cs.length := by
            simp [List.length_drop]
          have h2 : cs.length ≤ N := by simpa using Nat.lt_succ_iff.mp (Nat.lt_succ_of_le hl)
          omega
        have hihq := ih (cs.drop m) hlen2 ((c :: cs)[m]?)
        have hafter0 : P.bdry = true → nWord ((cs.drop m)[0]?) = true := by
          intro hbb
          have hafter := matchAtP_true_nWord_after hbb hmt
          rw [hm] at hafter
          have hidx : (c :: cs)[m + 1]? = (cs.drop m)[0]? := by
            simp only [List.getElem?_cons_succ]
            rw [List.getElem?_drop]
            simp
          rwa [hidx] at hafter
        generalize hdrop : cs.drop m = rest at hihq hafter0 ⊢
        cases rest with
        | nil => rfl
        | cons d ds =>
          cases hbb : P.bdry with
          | false =>
            have heq := scanGo_prev_irrel_bdry_false P hbb
              (scanOut P ((c :: cs)[m]?) (d :: ds)) 0
              (skipPrev p P.ph P.ph.length) ((c :: cs)[m]?)
            unfold scanCount at hihq
            rw [congrArg Prod.fst heq]
            exact hihq
          | true =>
            have hnwd : nWord (some d) = true := by
              have := hafter0 hbb
              simpa using this
            obtain ⟨p0, hp0⟩ : ∃ p0, P.preds[0]? = some p0 := by
              rw [List.getElem?_eq_getElem (by rw [hm]; omega)]
              exact ⟨_, rfl⟩
            have hp0d : p0 d = false := by
              cases hpd : p0 d with
              | false => rfl
              | true =>
                have hwd := hC hbb p0 hp0 d hpd
                simp only [nWord, hwd] at hnwd
                simp at hnwd
            have hshd : shapeAt P.preds (d :: ds) = false :=
              shapeAt_false_at hp0 (by simp) hp0d
            have hrest : scanOut P ((c :: cs)[m]?) (d :: ds) =
                d :: scanOut P (some d) ds := by
              unfold scanOut
              rw [scan_step_neg P _ d ds (matchAtP_false_of_shape hshd)]
            rw [hrest]
            have htransfer := scanGo_prev_irrel_head_fail P p0 hp0 d
              (scanOut P (some d) ds) hp0d
              (skipPrev p P.ph P.ph.length) ((c :: cs)[m]?)
            unfold scanCount at hihq
            rw [hrest] at hihq
            rw [congrArg Prod.fst htransfer]
            exact hihq

/-- When the scan found no match, the text is returned unchanged. -/
theorem scanOut_of_count_zero (P : Pat) (hn : P.preds ≠ []) :
    ∀ (N : Nat) (l : Str), l.length ≤ N → ∀ (p : Option Char),
      scanCount P p l = 0 → scanOut P p l = l := by
  intro N
  induction N with
  | zero =>
    intro l hl p _
    have : l = [] := List.length_eq_zero.mp (Nat.le_zero.mp hl)
    subst this
    rfl
  | succ N ih =>
    intro l hl p hc
    cases l with
    | nil => rfl
    | cons c cs =>
      cases hmt : matchAtP P p (c :: cs) with
      | true =>
        obtain ⟨m, hm⟩ : ∃ m, P.preds.length = m + 1 :=
          ⟨P.preds.length - 1, (Nat.succ_pred_eq_of_pos (List.length_pos.mpr hn)).symm⟩
        exfalso
        unfold scanCount at hc
        rw [scan_step_pos P m hm p c cs hmt] at hc
        simp at hc
      | false =>
        unfold scanCount at hc
        rw [scan_step_neg P p c cs hmt] at hc
        simp only at hc
        unfold scanOut
        rw [scan_step_neg P p c cs hmt]
        simp only [List.cons.injEq, true_and]
        exact ih cs (by simpa using Nat.lt_succ_iff.mp (Nat.lt_succ_of_le hl)) (some c) hc

/-- Unfolding equation of `winCount` at a cons cell. -/
theorem winCount_cons (P : Pat) (c : Char) (cs : Str) :
    winCount P (c :: cs) = (if matchAtP P none (c :: cs) = true then 1 else 0) + winCount P cs :=
  rfl

/-- For a pattern without boundaries, the scan finds no match exactly when no
window exists at all. -/
theorem winCount_zero_iff (P : Pat) (hn : P.preds ≠ []) (hb : P.bdry = false) :
    ∀ (N : Nat) (l : Str), l.length ≤ N → ∀ (p : Option Char),
      (scanCount P p l = 0 ↔ winCount P l = 0) := by
  intro N
  induction N with
  | zero =>
    intro l hl p
    have : l = [] := List.length_eq_zero.mp (Nat.le_zero.mp hl)
    subst this
    simp [scanCount, scanGo_nil, winCount]
  | succ N ih =>
    intro l hl p
    cases l with
    | nil => simp [scanCount, scanGo_nil, winCount]
    | cons c cs =>
      have hpn : matchAtP P p (c :: cs) = matchAtP P none (c :: cs) := by
        rw [matchAtP_bdry_false hb, matchAtP_bdry_false hb]
      cases hmt : matchAtP P none (c :: cs) with
      | true =>
        obtain ⟨m, hm⟩ : ∃ m, P.preds.length = m + 1 :=
          ⟨P.preds.length - 1, (Nat.succ_pred_eq_of_pos (List.length_pos.mpr hn)).symm⟩
        constructor
        · intro hc
          exfalso
          unfold scanCount at hc
          rw [scan_step_pos P m hm p c cs (hpn.trans hmt)] at hc
          simp at hc
        · intro hw
          exfalso
          unfold winCount at hw
          rw [hmt] at hw
          simp at hw
      | false =>
        have hstep : scanCount P p (c :: cs) = scanCount P (some c) cs := by
          unfold scanCount
          rw [scan_step_neg P p c cs (hpn.trans hmt)]
        rw [hstep, winCount_cons, hmt]
        simp only [Bool.false_eq_true, if_false, Nat.zero_add]
        exact ih cs (by simpa using Nat.lt_succ_iff.mp (Nat.lt_succ_of_le hl)) (some c)

/-- Windows cannot start inside a block where every start position fails. -/
theorem winCount_append_fail (P : Pat) :
    ∀ (u : Str),
      (∀ j, j < u.length → ∀ (t2 : Str), matchAtP P none (u.drop j ++ t2) = false) →
      ∀ (t : Str), winCount P (u ++ t) = winCount P t := by
  intro u
  induction u with
  | nil => intro _ t; rfl
  | cons c u' ih =>
    intro hu t
    have h0 : matchAtP P none (c :: (u' ++ t)) = false := by
      have := hu 0 (by simp) t
      simpa using this
    show winCount P (c :: (u' ++ t)) = winCount P t
    rw [winCount_cons, h0]
    simp only [Bool.false_eq_true, if_false, Nat.zero_add]
    refine ih (fun j hj t2 => ?_) t
    have := hu (j + 1) (by simpa using Nat.succ_lt_succ hj) t2
    simpa using this

/-- Dropping a prefix where no window starts preserves the window count. -/
theorem winCount_drop_fail (P : Pat) :
    ∀ (k : Nat) (l : Str),
      (∀ j, j < k → matchAtP P none (l.drop j) = false) →
      winCount P l = winCount P (l.drop k) := by
  intro k
  induction k with
  | zero => intro l _; rfl
  | succ k' ih =>
    intro l hl
    cases l with
    | nil => simp
    | cons c cs =>
      have h0 : matchAtP P none (c :: cs) = false := by
        have := hl 0 (Nat.succ_pos _)
        simpa using this
      show winCount P (c :: cs) = winCount P (cs.drop k')
      rw [winCount_cons, h0]
      simp only [Bool.false_eq_true, if_false, Nat.zero_add]
      refine ih cs (fun j hj => ?_)
      have := hl (j + 1) (Nat.succ_lt_succ hj)
      simpa using this

/-- Cross-pattern preservation: a global replacement with a boundary pattern
`Q` whose character classes are disjoint from the first class of a
boundary-free pattern `Pw`, and whose placeholder blocks every `Pw` window,
preserves the number of `Pw` windows exactly. -/
theorem winCount_preserved (Pw Q : Pat)
    (hQn : Q.preds ≠ []) (hQb : Q.bdry = true) (hQph : Q.ph[0]? = some '[')
    (hPb : Pw.bdry = false) (hPn : Pw.preds ≠ [])
    (hShield : ∀ (j : Nat), j < Q.ph.length → ∀ (t2 : Str),
      matchAtP Pw none (Q.ph.drop j ++ t2) = false)
    (hKill : ∀ (i : Nat) (pq : Char → Bool), Q.preds[i]? = some pq →
      ∀ (d : Char), pq d = true → ∀ (p0 : Char → Bool), Pw.preds[0]? = some p0 →
        p0 d = false)
    (hWord : ∀ (i : Nat) (pp : Char → Bool), Pw.preds[i]? = some pp →
      ∀ (d : Char), pp d = true → isWordCh d = true)
    (hD : ∀ (i : Nat) (pp : Char → Bool), Pw.preds[i]? = some pp → pp '[' = false) :
    ∀ (N : Nat) (l : Str), l.length ≤ N → ∀ (p : Option Char),
      winCount Pw (scanOut Q p l) = winCount Pw l := by
  intro N
  induction N with
  | zero =>
    intro l hl p
    have : l = [] := List.length_eq_zero.mp (Nat.le_zero.mp hl)
    subst this
    rfl
  | succ N ih =>
    intro l hl p
    cases l with
    | nil => rfl
    | cons c cs =>
      obtain ⟨p0, hp0⟩ : ∃ p0, Pw.preds[0]? = some p0 := by
        rw [List.getElem?_eq_getElem (List.length_pos.mpr hPn)]
        exact ⟨_, rfl⟩
      cases hmt : matchAtP Q p (c :: cs) with
      | true =>
        obtain ⟨m, hm⟩ : ∃ m, Q.preds.length = m + 1 :=
          ⟨Q.preds.length - 1, (Nat.succ_pred_eq_of_pos (List.length_pos.mpr hQn)).symm⟩
        have hout : scanOut Q p (c :: cs) =
            Q.ph ++ scanOut Q ((c :: cs)[m]?) (cs.drop m) := by
          unfold scanOut
          rw [scan_step_pos Q m hm p c cs hmt]
        rw [hout]
        rw [winCount_append_fail Pw Q.ph hShield]
        have hlen2 : (cs.drop m).length ≤ N := by
          have h1 : (cs.drop m).length ≤ cs.length := by simp [List.length_drop]
          have h2 : cs.length ≤ N := by simpa using Nat.lt_succ_iff.mp (Nat.lt_succ_of_le hl)
          omega
        rw [ih (cs.drop m) hlen2 ((c :: cs)[m]?)]
        have hqshape := matchAtP_true_shape hmt
        have hdropfail : ∀ j, j < m + 1 → matchAtP Pw none ((c :: cs).drop j) = false := by
          intro j hj
          obtain ⟨qj, hqj⟩ : ∃ qj, Q.preds[j]? = some qj := by
            rw [List.getElem?_eq_getElem (by omega)]
            exact ⟨_, rfl⟩
          obtain ⟨d, hd, hqd⟩ := shapeAt_true_at hqshape hqj
          refine matchAtP_false_of_shape (shapeAt_false_at hp0 ?_
            (hKill j qj hqj d hqd p0 hp0))
          rw [List.getElem?_drop]
          simpa using hd
        rw [winCount_drop_fail Pw (m + 1) (c :: cs) hdropfail]
        rfl
      | false =>
        have hout : scanOut Q p (c :: cs) = c :: scanOut Q (some c) cs := by
          unfold scanOut
          rw [scan_step_neg Q p c cs hmt]
        rw [hout, winCount_cons, winCount_cons]
        have hihq := ih cs (by simpa using Nat.lt_succ_iff.mp (Nat.lt_succ_of_le hl)) (some c)
        rw [hihq]
        obtain ⟨mP, hmP⟩ : ∃ mP, Pw.preds.length = mP + 1 :=
          ⟨Pw.preds.length - 1, (Nat.succ_pred_eq_of_pos (List.length_pos.mpr hPn)).symm⟩
        set out' := scanOut Q (some c) cs with hout'
        have hind : matchAtP Pw none (c :: out') = matchAtP Pw none (c :: cs) := by
          rcases scanOut_prefix Q hQn hQph cs.length cs (le_refl _) (some c) mP with
            htk | ⟨i, hi, h1, h2, h3⟩
          · rw [matchAtP_bdry_false hPb, matchAtP_bdry_false hPb]
            refine shapeAt_congr (fun i hi => ?_)
            cases i with
            | zero => simp
            | succ j =>
              simp only [List.getElem?_cons_succ]
              exact getElem?_of_take_eq htk (by omega)
          · have hleft : matchAtP Pw none (c :: out') = false := by
              obtain ⟨p1, hp1⟩ : ∃ p1, Pw.preds[i + 1]? = some p1 := by
                rw [List.getElem?_eq_getElem (by omega)]
                exact ⟨_, rfl⟩
              refine matchAtP_false_of_shape (shapeAt_false_at hp1 ?_ (hD (i + 1) p1 hp1))
              simpa using h2
            have hright : matchAtP Pw none (c :: cs) = false := by
              cases hmm : matchAtP Pw none (c :: cs) with
              | false => rfl
              | true =>
                exfalso
                have hshape := matchAtP_true_shape hmm
                obtain ⟨pi, hpi⟩ : ∃ pi, Pw.preds[i]? = some pi := by
                  rw [List.getElem?_eq_getElem (by omega)]
                  exact ⟨_, rfl⟩
                obtain ⟨e, he, hpe⟩ := shapeAt_true_at hshape hpi
                have hwe : isWordCh e = true := hWord i pi hpi e hpe
                have hnw : nWord (prevAt (some c) cs i) = true :=
                  matchAtP_true_nWord hQb h3
                have hprev : prevAt (some c) cs i = some e := by
                  unfold prevAt
                  rcases i with _ | j
                  · simpa using he
                  · rw [if_neg (Nat.succ_ne_zero j), Nat.succ_sub_one]
                    simpa using he
                rw [hprev] at hnw
                simp only [nWord, Bool.not_eq_true'] at hnw
                rw [hwe] at hnw
                simp at hnw
            rw [hleft, hright]
        rw [hind]

/-- A successful shield check blocks every start position inside `u`, whatever
text follows and whatever the look-behind is. -/
theorem shield_of_chk (P : Pat) (u : Str) (h : shieldChk P u = true) :
    ∀ (j : Nat), j < u.length → ∀ (q : Option Char) (t : Str),
      matchAtP P q (u.drop j ++ t) = false := by
  intro j hj q t
  unfold shieldChk at h
  rw [List.all_eq_true] at h
  have hj2 := h j (List.mem_range.mpr hj)
  rw [List.any_eq_true] at hj2
  obtain ⟨i, _, hmatch⟩ := hj2
  cases hpi : P.preds[i]? with
  | none => rw [hpi] at hmatch; simp at hmatch
  | some p0 =>
    cases hud : u[j + i]? with
    | none => rw [hpi, hud] at hmatch; simp at hmatch
    | some d =>
      rw [hpi, hud] at hmatch
      simp only [Bool.not_eq_true'] at hmatch
      refine matchAtP_false_of_shape (shapeAt_false_at hpi ?_ hmatch)
      have hlt : j + i < u.length := by
        by_contra hge
        rw [List.getElem?_eq_none (by omega)] at hud
        exact Option.noConfusion hud
      have hlen : i < (u.drop j).length := by
        rw [List.length_drop]
        omega
      rw [List.getElem?_append_left hlen, List.getElem?_drop]
      exact hud

/-! ## Concrete pattern facts -/
/-- Membership from a successful indexed lookup. -/
theorem mem_of_getElemOpt {α : Type} {l : List α} {n : Nat} {a : α} (h : l[n]? = some a) :
    a ∈ l := by
  have hn : n < l.length := by
    by_contra hge
    rw [List.getElem?_eq_none (by omega)] at h
    exact Option.noConfusion h
  rw [List.getElem?_eq_getElem hn] at h
  obtain rfl : l[n] = a := Option.some.inj h
  exact List.getElem_mem hn

/-- Digits are word characters. -/
theorem isDigitCh_word (d : Char) (h : isDigitCh d = true) : isWordCh d = true := by
  simp [isWordCh, h]

/-- Digits are not uppercase letters. -/
theorem isDigitCh_not_upper (d : Char) (h : isDigitCh d = true) : isUpperCh d = false := by
  simp only [isDigitCh, Bool.and_eq_true, decide_eq_true_eq] at h
  simp only [isUpperCh, Bool.and_eq_false_iff, decide_eq_false_iff_not]
  omega

/-- The hyphen is not an uppercase letter. -/
theorem isHyphenCh_not_upper (d : Char) (h : isHyphenCh d = true) : isUpperCh d = false := by
  simp only [isHyphenCh, decide_eq_true_eq] at h
  simp only [isUpperCh, Bool.and_eq_false_iff, decide_eq_false_iff_not]
  omega

/-- Whitespace is not an uppercase letter. -/
theorem isSpaceCh_not_upper (d : Char) (h : isSpaceCh d = true) : isUpperCh d = false := by
  simp only [isSpaceCh, Bool.or_eq_true, Bool.and_eq_true, decide_eq_true_eq] at h
  simp only [isUpperCh, Bool.and_eq_false_iff, decide_eq_false_iff_not]
  omega

/-- The PAN pattern predicates never accept the bracket. -/
theorem pan_D : ∀ (i : Nat) (p0 : Char → Bool), panPat.preds[i]? = some p0 →
    p0 '[' = false := by
  intro i p0 h
  have hmem : p0 ∈ panPat.preds := mem_of_getElemOpt h
  simp only [panPat] at hmem
  fin_cases hmem <;> decide

/-- The SSN pattern predicates never accept the bracket. -/
theorem ssn_D : ∀ (i : Nat) (p0 : Char → Bool), ssnPat.preds[i]? = some p0 →
    p0 '[' = false := by
  intro i p0 h
  have hmem : p0 ∈ ssnPat.preds := mem_of_getElemOpt h
  simp only [ssnPat] at hmem
  fin_cases hmem <;> decide

/-- The Aadhaar pattern predicates never accept the bracket. -/
theorem aad_D : ∀ (i : Nat) (p0 : Char → Bool), aadPat.preds[i]? = some p0 →
    p0 '[' = false := by
  intro i p0 h
  have hmem : p0 ∈ aadPat.preds := mem_of_getElemOpt h
  simp only [aadPat] at hmem
  fin_cases hmem <;> decide

/-- Every PAN predicate accepts only word characters. -/
theorem pan_word : ∀ (i : Nat) (pp : Char → Bool), panPat.preds[i]? = some pp →
    ∀ (d : Char), pp d = true → isWordCh d = true := by
  intro i pp h d hd
  have hmem : pp ∈ panPat.preds := mem_of_getElemOpt h
  simp only [panPat] at hmem
  fin_cases hmem <;>
    first
      | (exact isDigitCh_word d hd)
      | (simp only [isUpperCh, Bool.and_eq_true, decide_eq_true_eq] at hd
         simp only [isWordCh, isUpperCh, isDigitCh, Bool.or_eq_true, Bool.and_eq_true,
           decide_eq_true_eq]
         omega)

/-- Characters accepted by an SSN predicate are rejected by the first PAN
predicate. -/
theorem ssn_kill : ∀ (i : Nat) (pq : Char → Bool), ssnPat.preds[i]? = some pq →
    ∀ (d : Char), pq d = true → ∀ (p0 : Char → Bool), panPat.preds[0]? = some p0 →
      p0 d = false := by
  intro i pq h d hd p0 hp0
  have hp0' : p0 = isUpperCh := by
    have h0 : (panPat.preds[0]? : Option (Char → Bool)) = some isUpperCh := rfl
    rw [h0] at hp0
    exact (Option.some.inj hp0).symm
  subst hp0'
  have hmem : pq ∈ ssnPat.preds := mem_of_getElemOpt h
  simp only [ssnPat] at hmem
  fin_cases hmem <;>
    first
      | (exact isDigitCh_not_upper d hd)
      | (exact isHyphenCh_not_upper d hd)

/-- Characters accepted by an Aadhaar predicate are rejected by the first PAN
predicate. -/
theorem aad_kill : ∀ (i : Nat) (pq : Char → Bool), aadPat.preds[i]? = some pq →
    ∀ (d : Char), pq d = true → ∀ (p0 : Char → Bool), panPat.preds[0]? = some p0 →
      p0 d = false := by
  intro i pq h d hd p0 hp0
  have hp0' : p0 = isUpperCh := by
    have h0 : (panPat.preds[0]? : Option (Char → Bool)) = some isUpperCh := rfl
    rw [h0] at hp0
    exact (Option.some.inj hp0).symm
  subst hp0'
  have hmem : pq ∈ aadPat.preds := mem_of_getElemOpt h
  simp only [aadPat] at hmem
  fin_cases hmem <;>
    first
      | (exact isDigitCh_not_upper d hd)
      | (exact isSpaceCh_not_upper d hd)

/-- The boundary hypotheses of the SSN pattern: its first and last predicates
are the digit class, which contains only word characters. -/
theorem ssn_E : ssnPat.bdry = true → ∀ (pl : Char → Bool),
    ssnPat.preds[ssnPat.preds.length - 1]? = some pl →
    ∀ (d : Char), pl d = true → isWordCh d = true := by
  intro _ pl hpl d hd
  have h0 : (ssnPat.preds[ssnPat.preds.length - 1]? : Option (Char → Bool)) =
      some isDigitCh := rfl
  rw [h0] at hpl
  obtain rfl := (Option.some.inj hpl).symm
  exact isDigitCh_word d hd

/-- First-predicate version for the SSN pattern. -/
theorem ssn_C : ssnPat.bdry = true → ∀ (p0 : Char → Bool), ssnPat.preds[0]? = some p0 →
    ∀ (d : Char), p0 d = true → isWordCh d = true := by
  intro _ p0 hp0 d hd
  have h0 : (ssnPat.preds[0]? : Option (Char → Bool)) = some isDigitCh := rfl
  rw [h0] at hp0
  obtain rfl := (Option.some.inj hp0).symm
  exact isDigitCh_word d hd

/-- Last-predicate fact for the Aadhaar pattern. -/
theorem aad_E : aadPat.bdry = true → ∀ (pl : Char → Bool),
    aadPat.preds[aadPat.preds.length - 1]? = some pl →
    ∀ (d : Char), pl d = true → isWordCh d = true := by
  intro _ pl hpl d hd
  have h0 : (aadPat.preds[aadPat.preds.length - 1]? : Option (Char → Bool)) =
      some isDigitCh := rfl
  rw [h0] at hpl
  obtain rfl := (Option.some.inj hpl).symm
  exact isDigitCh_word d hd

/-- First-predicate fact for the Aadhaar pattern. -/
theorem aad_C : aadPat.bdry = true → ∀ (p0 : Char → Bool), aadPat.preds[0]? = some p0 →
    ∀ (d : Char), p0 d = true → isWordCh d = true := by
  intro _ p0 hp0 d hd
  have h0 : (aadPat.preds[0]? : Option (Char → Bool)) = some isDigitCh := rfl
  rw [h0] at hp0
  obtain rfl := (Option.some.inj hp0).symm
  exact isDigitCh_word d hd

/-- The PAN pattern has no boundary requirement, so its boundary hypotheses
hold vacuously. -/
theorem pan_E : panPat.bdry = true → ∀ (pl : Char → Bool),
    panPat.preds[panPat.preds.length - 1]? = some pl →
    ∀ (d : Char), pl d = true → isWordCh d = true := by
  intro h
  exact absurd h (by decide)

/-- Vacuous first-predicate fact for the PAN pattern. -/
theorem pan_C : panPat.bdry = true → ∀ (p0 : Char → Bool), panPat.preds[0]? = some p0 →
    ∀ (d : Char), p0 d = true → isWordCh d = true := by
  intro h
  exact absurd h (by decide)

/-- Zero-remaining, PAN: the PAN-replaced text has no PAN match. -/
theorem pan_rescan_zero (l : Str) (p : Option Char) :
    scanCount panPat p (scanOut panPat p l) = 0 :=
  scan_rescan_zero panPat (by simp [panPat]) rfl pan_D pan_E
    (shield_of_chk panPat panPat.ph (by decide)) pan_C l.length l (le_refl _) p

/-- Zero-remaining, SSN. -/
theorem ssn_rescan_zero (l : Str) (p : Option Char) :
    scanCount ssnPat p (scanOut ssnPat p l) = 0 :=
  scan_rescan_zero ssnPat (by simp [ssnPat]) rfl ssn_D ssn_E
    (shield_of_chk ssnPat ssnPat.ph (by decide)) ssn_C l.length l (le_refl _) p

/-- Zero-remaining, Aadhaar. -/
theorem aad_rescan_zero (l : Str) (p : Option Char) :
    scanCount aadPat p (scanOut aadPat p l) = 0 :=
  scan_rescan_zero aadPat (by simp [aadPat]) rfl aad_D aad_E
    (shield_of_chk aadPat aadPat.ph (by decide)) aad_C l.length l (le_refl _) p

/-- SSN replacement preserves the PAN windows of the text exactly. -/
theorem pan_win_ssn (l : Str) (p : Option Char) :
    winCount panPat (scanOut ssnPat p l) = winCount panPat l :=
  winCount_preserved panPat ssnPat (by simp [ssnPat]) rfl rfl rfl (by simp [panPat])
    (fun j hj t2 => shield_of_chk panPat ssnPat.ph (by decide) j hj none t2)
    ssn_kill pan_word pan_D l.length l (le_refl _) p

/-- Aadhaar replacement preserves the PAN windows of the text exactly. -/
theorem pan_win_aad (l : Str) (p : Option Char) :
    winCount panPat (scanOut aadPat p l) = winCount panPat l :=
  winCount_preserved panPat aadPat (by simp [aadPat]) rfl rfl rfl (by simp [panPat])
    (fun j hj t2 => shield_of_chk panPat aadPat.ph (by decide) j hj none t2)
    aad_kill pan_word pan_D l.length l (le_refl _) p

/-- Unfolding of the US-mode redaction (definitional). -/
theorem redact_us_eq (text : Str) :
    redactSensitiveData text .us =
      { cleanedText :=
          if 0 < scanCount ssnPat none text then scanOut ssnPat none text else text
        redactedItems :=
          if 0 < scanCount ssnPat none text then [(RedType.SSN, scanCount ssnPat none text)]
          else []
        totalRedactions :=
          if 0 < scanCount ssnPat none text then scanCount ssnPat none text else 0 } := by
  unfold redactSensitiveData
  by_cases h : 0 < scanCount ssnPat none text <;> simp [h]

/-- Unfolding of the india-mode redaction (definitional). -/
theorem redact_india_eq (text : Str) :
    redactSensitiveData text .india =
      (let panN := scanCount panPat none text
       let t1 := if 0 < panN then scanOut panPat none text else text
       let aadN := scanCount aadPat none t1
       { cleanedText := if 0 < aadN then scanOut aadPat none t1 else t1
         redactedItems :=
           (if 0 < panN then [(RedType.PAN, panN)] else []) ++
           (if 0 < aadN then [(RedType.AADHAAR, aadN)] else [])
         totalRedactions :=
           (if 0 < panN then panN else 0) + (if 0 < aadN then aadN else 0) }) := by
  unfold redactSensitiveData
  by_cases h1 : 0 < scanCount panPat none text <;>
    by_cases h2 : 0 < scanCount aadPat none
      (if 0 < scanCount panPat none text then scanOut panPat none text else text) <;>
    simp_all

/-- No SSN match survives US-mode redaction. -/
theorem us_cleaned_ssn_zero (text : Str) :
    scanCount ssnPat none (redactSensitiveData text .us).cleanedText = 0 := by
  rw [redact_us_eq]
  by_cases h : 0 < scanCount ssnPat none text
  · simp only [h, if_true]
    exact ssn_rescan_zero text none
  · simp only [h, if_false]
    omega

/-- No PAN match survives the first india step. -/
theorem indiaStep1_pan_zero (text : Str) : scanCount panPat none (indiaStep1 text) = 0 := by
  unfold indiaStep1
  by_cases h : 0 < scanCount panPat none text
  · simp only [h, if_true]
    exact pan_rescan_zero text none
  · simp only [h, if_false]
    omega

/-- No PAN match survives india-mode redaction: the Aadhaar replacement of the
second step cannot create a PAN window. -/
theorem india_cleaned_pan_zero (text : Str) :
    scanCount panPat none (redactSensitiveData text .india).cleanedText = 0 := by
  rw [redact_india_eq]
  simp only
  have hz1 : scanCount panPat none (indiaStep1 text) = 0 := indiaStep1_pan_zero text
  have hw1 : winCount panPat (indiaStep1 text) = 0 :=
    (winCount_zero_iff panPat (by simp [panPat]) rfl (indiaStep1 text).length
      (indiaStep1 text) (le_refl _) none).mp hz1
  by_cases h2 : 0 < scanCount aadPat none (indiaStep1 text)
  · show scanCount panPat none
      (if 0 < scanCount aadPat none (indiaStep1 text) then
        scanOut aadPat none (indiaStep1 text) else indiaStep1 text) = 0
    rw [if_pos h2]
    have hw2 : winCount panPat (scanOut aadPat none (indiaStep1 text)) = 0 := by
      rw [pan_win_aad (indiaStep1 text) none]
      exact hw1
    exact (winCount_zero_iff panPat (by simp [panPat]) rfl _ _ (le_refl _) none).mpr hw2
  · show scanCount panPat none
      (if 0 < scanCount aadPat none (indiaStep1 text) then
        scanOut aadPat none (indiaStep1 text) else indiaStep1 text) = 0
    rw [if_neg h2]
    exact hz1

/-- No Aadhaar match survives india-mode redaction. -/
theorem india_cleaned_aad_zero (text : Str) :
    scanCount aadPat none (redactSensitiveData text .india).cleanedText = 0 := by
  rw [redact_india_eq]
  simp only
  by_cases h2 : 0 < scanCount aadPat none (indiaStep1 text)
  · show scanCount aadPat none
      (if 0 < scanCount aadPat none (indiaStep1 text) then
        scanOut aadPat none (indiaStep1 text) else indiaStep1 text) = 0
    rw [if_pos h2]
    exact aad_rescan_zero (indiaStep1 text) none
  · show scanCount aadPat none
      (if 0 < scanCount aadPat none (indiaStep1 text) then
        scanOut aadPat none (indiaStep1 text) else indiaStep1 text) = 0
    rw [if_neg h2]
    omega

/-- C5 counterexample: the input contains one PAN and no Aadhaar match, yet
india-mode redaction reports one Aadhaar redaction: replacing the PAN created
a fresh word boundary in front of the digits, so the Aadhaar count differs
from the number of Aadhaar occurrences in the input. -/
theorem C5_counterexample :
    scanCount panPat none ("ABCDE1234F1111 2222 3333".toList) = 1 ∧
    scanCount aadPat none ("ABCDE1234F1111 2222 3333".toList) = 0 ∧
    (redactSensitiveData ("ABCDE1234F1111 2222 3333".toList) .india).redactedItems =
      [(RedType.PAN, 1), (RedType.AADHAAR, 1)] := by
  refine ⟨by decide, by decide, by decide⟩

/-- C5 amended: per-category counts equal the number of global matches in the
text each pattern is applied to (SSN and PAN: the input; Aadhaar: the
PAN-redacted text); the cleaned text retains no match of any pattern applied
in the selected mode; and validateRedaction accepts the cleaned text. -/
theorem C5_amended_redaction (text : Str) :
    ((redactSensitiveData text .us).redactedItems =
      (if 0 < scanCount ssnPat none text then [(RedType.SSN, scanCount ssnPat none text)]
       else [])) ∧
    scanCount ssnPat none (redactSensitiveData text .us).cleanedText = 0 ∧
    validateRedaction (redactSensitiveData text .us).cleanedText .us = true ∧
    ((redactSensitiveData text .india).redactedItems =
      (if 0 < scanCount panPat none text then [(RedType.PAN, scanCount panPat none text)]
       else []) ++
      (if 0 < scanCount aadPat none (indiaStep1 text) then
        [(RedType.AADHAAR, scanCount aadPat none (indiaStep1 text))] else [])) ∧
    scanCount panPat none (redactSensitiveData text .india).cleanedText = 0 ∧
    scanCount aadPat none (redactSensitiveData text .india).cleanedText = 0 ∧
    validateRedaction (redactSensitiveData text .india).cleanedText .india = true := by
  refine ⟨?_, us_cleaned_ssn_zero text, ?_, ?_, india_cleaned_pan_zero text,
    india_cleaned_aad_zero text, ?_⟩
  · rw [redact_us_eq]
  · unfold validateRedaction
    rw [us_cleaned_ssn_zero text]
    rfl
  · rw [redact_india_eq]
    rfl
  · unfold validateRedaction
    rw [india_cleaned_pan_zero text]
    rfl

/-- C9 counterexample: india-mode redaction destroys an SSN-shaped substring
(the Aadhaar pattern consumes its last digit group), and US-mode redaction
destroys an Aadhaar-shaped substring (the SSN pattern consumes its first
digit group), refuting the claimed leaves-unchanged property in both modes. -/
theorem C9_counterexample :
    strIncl ("123-45-6789 1234 5678".toList) ("123-45-6789".toList) = true ∧
    strIncl ((redactSensitiveData ("123-45-6789 1234 5678".toList) .india).cleanedText)
      ("123-45-6789".toList) = false ∧
    strIncl ("123-45-6789 1234 5678".toList) ("6789 1234 5678".toList) = true ∧
    strIncl ((redactSensitiveData ("123-45-6789 1234 5678".toList) .us).cleanedText)
      ("6789 1234 5678".toList) = false := by
  refine ⟨by decide, by decide, by decide, by decide⟩

/-- C9 amended: redaction is mode-gated; US mode applies only the SSN pattern
(its item list mentions only SSN and its cleaned text is exactly the SSN
replacement), and US-mode redaction leaves every PAN-shaped window intact;
india mode applies only the PAN and Aadhaar patterns.  (Cross-category shapes
that share digits - an Aadhaar shape in US mode, an SSN shape in india mode -
can be partially consumed, as the counterexample shows.) -/
theorem C9_amended_mode_gating (text : Str) :
    ((redactSensitiveData text .us).cleanedText =
      (if 0 < scanCount ssnPat none text then scanOut ssnPat none text else text)) ∧
    (∀ item ∈ (redactSensitiveData text .us).redactedItems, item.1 = RedType.SSN) ∧
    winCount panPat (redactSensitiveData text .us).cleanedText = winCount panPat text ∧
    ((redactSensitiveData text .india).cleanedText =
      (if 0 < scanCount aadPat none (indiaStep1 text) then
        scanOut aadPat none (indiaStep1 text) else indiaStep1 text)) ∧
    (∀ item ∈ (redactSensitiveData text .india).redactedItems,
      item.1 = RedType.PAN ∨ item.1 = RedType.AADHAAR) := by
  refine ⟨?_, ?_, ?_, ?_, ?_⟩
  · rw [redact_us_eq]
  · rw [redact_us_eq]
    intro item h
    by_cases hc : 0 < scanCount ssnPat none text
    · simp only [hc, if_true, List.mem_singleton] at h
      rw [h]
    · simp [hc] at h
  · rw [redact_us_eq]
    simp only
    by_cases hc : 0 < scanCount ssnPat none text
    · rw [if_pos hc]
      exact pan_win_ssn text none
    · rw [if_neg hc]
  · rw [redact_india_eq]
    rfl
  · rw [redact_india_eq]
    intro item h
    simp only [List.mem_append] at h
    rcases h with h | h
    · simp at h
      left
      rw [h.2]
    · simp at h
      right
      rw [h.2]

/-- Witness for the amended C9 at a concrete SSN-bearing text. -/
theorem C9_amended_mode_gating_witness :
    ((RedType.SSN, 1) : RedType × Nat).1 = RedType.SSN :=
  (C9_amended_mode_gating ("111-22-3333".toList)).2.1 (RedType.SSN, 1) (by decide)

/-- C10: redaction is idempotent - redacting an already-redacted text returns
it unchanged, with no redacted items and a zero total; the placeholders never
match or combine with surrounding text into a new match of the applied
patterns. -/
theorem C10_redaction_idempotent (text : Str) (mode : CountryMode) :
    redactSensitiveData (redactSensitiveData text mode).cleanedText mode =
      { cleanedText := (redactSensitiveData text mode).cleanedText
        redactedItems := []
        totalRedactions := 0 } := by
  cases mode with
  | us =>
    have hz := us_cleaned_ssn_zero text
    rw [redact_us_eq ((redactSensitiveData text .us).cleanedText)]
    simp [hz]
  | india =>
    have hp := india_cleaned_pan_zero text
    have ha := india_cleaned_aad_zero text
    rw [redact_india_eq ((redactSensitiveData text .india).cleanedText)]
    simp [hp, ha]
